import Mathlib

/-!
Verification development for the `cjm-byte-track` repository: a shallow
embedding in Lean 4 of the ByteTrack multi-object tracker (geometry kernel,
assignment kernel, Kalman filter, track object, tracker orchestrator),
together with theorems settling the specification claims.

Numeric model: the Python code computes with IEEE-754 doubles.  We embed
scalars as `Option ℚ`: `some q` is a finite value with exact rational
arithmetic, and `none` stands for a non-finite value (infinity or NaN),
which in this code can only arise from a division whose denominator is
zero.  Arithmetic propagates `none`; comparisons against `none` are false,
matching IEEE comparisons on NaN (the only non-finite values that reach a
comparison in the claims below).  Detection scores and frame counters never
pass through a division, so they are embedded as plain `ℚ` and `ℤ`.

Python object identity matters in `BYTETracker.update` (tracks are mutated
in place while being shared between `tracked_stracks`, `lost_stracks` and
the working pool), so the tracker is embedded with an explicit object heap:
a `List STrack` of object states, where the tracker's three lists hold heap
indices and in-place mutation is a heap update.
-/

namespace ByteTrack

/-- A numpy double: `some q` finite, `none` non-finite (inf or NaN). -/
abbrev NpF := Option ℚ

/-- Addition on numpy doubles; non-finite operands propagate. -/
def fadd : NpF → NpF → NpF
  | some a, some b => some (a + b)
  | _, _ => none

/-- Subtraction on numpy doubles. -/
def fsub : NpF → NpF → NpF
  | some a, some b => some (a - b)
  | _, _ => none

/-- Multiplication on numpy doubles. -/
def fmul : NpF → NpF → NpF
  | some a, some b => some (a * b)
  | _, _ => none

/-- Division on numpy doubles: a zero denominator gives a non-finite
result (`x/0` is `±inf`, `0/0` is NaN), embedded as `none`. -/
def fdiv : NpF → NpF → NpF
  | some a, some b => if b = 0 then none else some (a / b)
  | _, _ => none

/-- `np.maximum`. -/
def fmax : NpF → NpF → NpF
  | some a, some b => some (max a b)
  | _, _ => none

/-- `np.minimum`. -/
def fmin : NpF → NpF → NpF
  | some a, some b => some (min a b)
  | _, _ => none

/-- `x ≤ t` as evaluated on doubles: false when `x` is NaN. -/
def fle (x : NpF) (t : ℚ) : Bool :=
  match x with
  | some a => decide (a ≤ t)
  | none => false

/-- `x > t` as evaluated on doubles: false when `x` is NaN. -/
def fgt (x : NpF) (t : ℚ) : Bool :=
  match x with
  | some a => decide (t < a)
  | none => false

/-- `x < t` as evaluated on doubles: false when `x` is NaN. -/
def flt (x : NpF) (t : ℚ) : Bool :=
  match x with
  | some a => decide (a < t)
  | none => false

/-- A vector of numpy doubles. -/
abbrev Vec := List NpF

/-- A matrix of numpy doubles (list of rows). -/
abbrev Mat := List Vec

/-- Entry lookup in a vector (out of range gives `none`). -/
def vget (v : Vec) (i : ℕ) : NpF := v.getD i none

/-- Dot product. -/
def dotF (a b : Vec) : NpF := (List.zipWith fmul a b).foldl fadd (some 0)

/-- Matrix–vector product. -/
def matVecF (m : Mat) (v : Vec) : Vec := m.map (fun r => dotF r v)

/-- Transpose of a rectangular matrix. -/
def trF (m : Mat) : Mat :=
  (List.range (m.headD []).length).map (fun j => m.map (fun r => vget r j))

/-- Matrix product. -/
def matMulF (a b : Mat) : Mat :=
  let bt := trF b
  a.map (fun r => bt.map (fun c => dotF r c))

/-- Entrywise matrix sum. -/
def matAddF (a b : Mat) : Mat := List.zipWith (List.zipWith fadd) a b

/-- Entrywise vector difference. -/
def vSubF (a b : Vec) : Vec := List.zipWith fsub a b

/-- Entrywise vector sum. -/
def vAddF (a b : Vec) : Vec := List.zipWith fadd a b

/-- `np.diag` of a vector. -/
def diagF (v : Vec) : Mat :=
  (List.range v.length).map (fun i =>
    (List.range v.length).map (fun j => if i = j then vget v i else some 0))

/-- Entrywise square of a vector. -/
def squareV (v : Vec) : Vec := v.map (fun x => fmul x x)

/-- A numpy 2-d array: the row data together with its shape, so that empty
arrays keep the correct number of columns. -/
structure NpMat where
  nrows : ℕ
  ncols : ℕ
  data : List Vec
deriving DecidableEq, Repr

/-- Entry `(i, j)` of an `NpMat` (out of range gives `none`). -/
def NpMat.entry (C : NpMat) (i j : ℕ) : NpF := vget (C.data.getD i []) j

/-! ## Geometry kernel (`cjm_byte_track.matching`) -/

/-- Signed area `(x₂ - x₁) * (y₂ - y₁)` of a box in `(x₁,y₁,x₂,y₂)` form. -/
def boxArea (b : Vec) : NpF :=
  fmul (fsub (vget b 2) (vget b 0)) (fsub (vget b 3) (vget b 1))

/-- Intersection area of two boxes:
`max(0, min(x₂) - max(x₁)) * max(0, min(y₂) - max(y₁))`. -/
def interArea (a b : Vec) : NpF :=
  fmul
    (fmax (fsub (fmin (vget a 2) (vget b 2)) (fmax (vget a 0) (vget b 0))) (some 0))
    (fmax (fsub (fmin (vget a 3) (vget b 3)) (fmax (vget a 1) (vget b 1))) (some 0))

/-- `box_iou_batch`: the N×M matrix whose entry `(i,j)` is
`area_inter / (area_true + area_detection - area_inter)`.  The division is
numpy double division: a zero denominator gives a non-finite entry. -/
def box_iou_batch (boxes_true boxes_detection : List Vec) : NpMat :=
  { nrows := boxes_true.length
    ncols := boxes_detection.length
    data := boxes_true.map (fun a =>
      boxes_detection.map (fun b =>
        fdiv (interArea a b)
          (fsub (fadd (boxArea a) (boxArea b)) (interArea a b)))) }

/-- `ious`: short-circuits to an all-zero matrix of the correct shape when
either input list is empty, otherwise defers to `box_iou_batch`. -/
def ious (atlbrs btlbrs : List Vec) : NpMat :=
  if atlbrs.isEmpty || btlbrs.isEmpty then
    { nrows := atlbrs.length, ncols := btlbrs.length
      data := atlbrs.map (fun _ => btlbrs.map (fun _ => some 0)) }
  else
    box_iou_batch atlbrs btlbrs

/-- `iou_distance` on raw box arrays: cost is `1 - IoU`. -/
def iou_distance_boxes (atlbrs btlbrs : List Vec) : NpMat :=
  let m := ious atlbrs btlbrs
  { m with data := m.data.map (List.map (fun x => fsub (some 1) x)) }

/-! ## Assignment kernel (`cjm_byte_track.matching`) -/

/-- `indices_to_matches`: keep the candidate pairs whose cost is `≤ thresh`
(the mask is evaluated on the matrix that is passed in, which at the call
site is the clamped matrix), and return the row/column indices that are not
covered by a kept pair (`np.setdiff1d` of `arange` against the matched
indices, which is this order-preserving filter of `range`). -/
def indices_to_matches (C : NpMat) (pairs : List (ℕ × ℕ)) (thresh : ℚ) :
    List (ℕ × ℕ) × List ℕ × List ℕ :=
  let kept := pairs.filter (fun p => fle (C.entry p.1 p.2) thresh)
  let unmatched_a := (List.range C.nrows).filter
    (fun i => !((kept.map Prod.fst).contains i))
  let unmatched_b := (List.range C.ncols).filter
    (fun j => !((kept.map Prod.snd).contains j))
  (kept, unmatched_a, unmatched_b)

/-- All maximum-cardinality one-to-one pairings between the given row and
column indices: the search space of `scipy.optimize.linear_sum_assignment`,
which matches `min(N, M)` pairs. -/
def allMatchings : List ℕ → List ℕ → List (List (ℕ × ℕ))
  | [], _ => [[]]
  | r :: rs, cols =>
    let withR := cols.map (fun c =>
      (allMatchings rs (cols.erase c)).map (fun m => (r, c) :: m))
    if rs.length < cols.length then withR.flatten
    else withR.flatten ++ allMatchings rs cols
termination_by rows _ => rows.length

/-- Total cost of a pairing under a cost function. -/
def matchCost (cost : ℕ × ℕ → ℚ) (m : List (ℕ × ℕ)) : ℚ := (m.map cost).sum

/-- First minimiser of `matchCost` in a candidate list (empty list gives the
empty pairing).  Together with `allMatchings` this is an executable model of
`scipy.optimize.linear_sum_assignment`: an optimal assignment matching
`min(N, M)` pairs. -/
def bestMatching (cost : ℕ × ℕ → ℚ) : List (List (ℕ × ℕ)) → List (ℕ × ℕ)
  | [] => []
  | c :: cs => cs.foldl
      (fun best x => if matchCost cost x < matchCost cost best then x else best) c

/-- `linear_sum_assignment` applied to an `NpMat` whose entries are assumed
finite: minimise the total cost over all maximum-cardinality pairings of
rows with columns. -/
def linear_sum_assignment (C : NpMat) : List (ℕ × ℕ) :=
  bestMatching (fun p => (C.entry p.1 p.2).getD 0)
    (allMatchings (List.range C.nrows) (List.range C.ncols))

/-- The clamp `np.where(cost_matrix > thresh, thresh + 1e-4, cost_matrix)`
applied before solving (a NaN entry compares false, so it stays). -/
def clampMat (C : NpMat) (thresh : ℚ) : NpMat :=
  { C with data := C.data.map (List.map (fun x =>
      if fgt x thresh then some (thresh + 1/10000) else x)) }

/-- `linear_assignment`: on an empty matrix return no matches and all
indices unmatched; otherwise clamp entries above `thresh` to
`thresh + 1e-4`, solve the assignment problem, and post-filter through
`indices_to_matches`.  `scipy.optimize.linear_sum_assignment` raises on a
matrix containing NaN (and the clamp keeps NaN entries, since `NaN > thresh`
is false), so that case is embedded as `none`. -/
def linear_assignment (C : NpMat) (thresh : ℚ) :
    Option (List (ℕ × ℕ) × List ℕ × List ℕ) :=
  if C.nrows = 0 ∨ C.ncols = 0 then
    some ([], List.range C.nrows, List.range C.ncols)
  else
    let clamped : NpMat := clampMat C thresh
    if clamped.data.all (fun r => r.all Option.isSome) then
      some (indices_to_matches clamped (linear_sum_assignment clamped) thresh)
    else
      none

/-! ## Kalman filter (`cjm_byte_track.kalman_filter`)

The filter object holds only constants (`ndim = 4`, `dt = 1`, the motion
and update matrices, and the two noise weights), so it is embedded as a
namespace of pure functions. -/

namespace KalmanFilter

/-- `_motion_mat`: the 8×8 block matrix `[[I₄, I₄], [0, I₄]]` (dt = 1). -/
def motion_mat : Mat :=
  (List.range 8).map (fun i =>
    (List.range 8).map (fun j =>
      if j = i ∨ j = i + 4 then some 1 else some 0))

/-- `_update_mat`: the 4×8 matrix `[I₄, 0]`. -/
def update_mat : Mat :=
  (List.range 4).map (fun i =>
    (List.range 8).map (fun j => if j = i then some 1 else some 0))

/-- `_std_weight_position = 1/20`. -/
def std_weight_position : ℚ := 1/20

/-- `_std_weight_velocity = 1/160`. -/
def std_weight_velocity : ℚ := 1/160

/-- `_create_std`: standard deviations proportional to the height
`mean[3]`, with fixed small constants for the aspect-ratio components. -/
def create_std (mean : Vec) : Vec :=
  let std_pos := fmul (some std_weight_position) (vget mean 3)
  let std_vel := fmul (some std_weight_velocity) (vget mean 3)
  [std_pos, std_pos, some (1/100), std_pos,
   std_vel, std_vel, some (1/100000), std_vel]

/-- `initiate`: mean is the measurement with zero velocities appended,
covariance is the diagonal of the squared standard deviations. -/
def initiate (measurement : Vec) : Vec × Mat :=
  let mean := measurement ++ measurement.map (fun _ => some 0)
  (mean, diagF (squareV (create_std mean)))

/-- `predict`: `(F·mean, F·cov·Fᵀ + Q)` with `Q` built from the pre-predict
mean. -/
def predict (mean : Vec) (covariance : Mat) : Vec × Mat :=
  let motion_cov := diagF (squareV (create_std mean))
  (matVecF motion_mat mean,
   matAddF (matMulF (matMulF motion_mat covariance) (trF motion_mat)) motion_cov)

/-- `multi_predict`: the vectorized prediction step.  A K×8 mean array is a
list of mean vectors and a K×8×8 covariance array a list of matrices; the
per-row numpy operations become maps and the broadcast sum a `zipWith`. -/
def multi_predict (mean : List Vec) (covariance : List Mat) :
    List Vec × List Mat :=
  let motion_cov := mean.map (fun m => diagF (squareV (create_std m)))
  (mean.map (fun m => matVecF motion_mat m),
   List.zipWith (fun c q => matAddF (matMulF (matMulF motion_mat c) (trF motion_mat)) q)
     covariance motion_cov)

/-- `project`: `(H·mean, H·cov·Hᵀ + R)` with `R` the diagonal of the squared
first four standard deviations. -/
def project (mean : Vec) (covariance : Mat) : Vec × Mat :=
  let innovation_cov := diagF (squareV ((create_std mean).take 4))
  (matVecF update_mat mean,
   matAddF (matMulF (matMulF update_mat covariance) (trF update_mat)) innovation_cov)

/-- One step of Gauss–Jordan elimination on an augmented matrix, pivoting on
the diagonal entry `(k, k)` without row exchanges. -/
def elimStep (k : ℕ) (rows : Mat) : Mat :=
  let pr := rows.getD k []
  let piv := vget pr k
  let prn := pr.map (fun x => fdiv x piv)
  rows.enum.map (fun ri =>
    if ri.1 = k then prn
    else vSubF ri.2 (prn.map (fun x => fmul (vget ri.2 k) x)))

/-- Exact inverse of a square matrix by Gauss–Jordan elimination.  This
embeds `scipy.linalg.cho_factor` followed by `cho_solve`: on the symmetric
positive-definite matrices the filter produces, the Cholesky solve computes
exactly `S⁻¹·B` (the factorization is a numerical device; in exact rational
arithmetic the solve is the inverse). -/
def matInvF (S : Mat) : Mat :=
  let n := S.length
  let aug := S.enum.map (fun ri =>
    ri.2 ++ (List.range n).map (fun j => if j = ri.1 then some 1 else some 0))
  let red := (List.range n).foldl (fun rs k => elimStep k rs) aug
  red.map (fun r => r.drop n)

/-- `update`: the Kalman correction step.  The gain is
`cho_solve(cho_factor(S), H·cov).T = (S⁻¹·(H·cov))ᵀ`; the new mean is
`mean + (z - H·mean)·Kᵀ` and the new covariance `cov - K·S·Kᵀ`. -/
def update (mean : Vec) (covariance : Mat) (measurement : Vec) : Vec × Mat :=
  let projected := project mean covariance
  let kalman_gain := trF (matMulF (matInvF projected.2) (matMulF update_mat covariance))
  let innovation := vSubF measurement projected.1
  (vAddF mean (matVecF kalman_gain innovation),
   let kskt := matMulF (matMulF kalman_gain projected.2) (trF kalman_gain)
   List.zipWith (List.zipWith fsub) covariance kskt)

end KalmanFilter

/-! ## Track object (`cjm_byte_track.basetrack`, `cjm_byte_track.strack`) -/

/-- `TrackState` from `basetrack`. -/
inductive TrackState
  | New
  | Tracked
  | Lost
  | Removed
deriving DecidableEq, Repr, Inhabited

/-- An `STrack` object's fields (flattening the `BaseTrack` superclass).
The stateless per-track `kalman_filter` handle and the unused
`history`/`features`/`location` fields are omitted; `mean`/`covariance` are
`Option`-valued because they hold Python `None` until `activate`. -/
structure STrack where
  tlwh0 : Vec
  score : ℚ
  track_id : ℤ
  is_activated : Bool
  state : TrackState
  start_frame : ℤ
  frame_id : ℤ
  tracklet_len : ℤ
  mean : Option Vec
  covariance : Option Mat
deriving DecidableEq, Repr

instance : Inhabited STrack :=
  ⟨⟨[], 0, 0, false, .New, 0, 0, 0, none, none⟩⟩

namespace STrack

/-- `STrack.__init__` (on top of `BaseTrack.__init__`): store the `tlwh`
box and the score; everything else takes its default. -/
def mkNew (tlwh : Vec) (score : ℚ) : STrack :=
  { tlwh0 := tlwh, score := score, track_id := 0, is_activated := false
    state := .New, start_frame := 0, frame_id := 0, tracklet_len := 0
    mean := none, covariance := none }

/-- `BaseTrack.end_frame`: the track's most recent frame. -/
def end_frame (t : STrack) : ℤ := t.frame_id

/-- `BaseTrack.mark_lost`. -/
def mark_lost (t : STrack) : STrack := { t with state := .Lost }

/-- `BaseTrack.mark_removed`. -/
def mark_removed (t : STrack) : STrack := { t with state := .Removed }

/-- `tlwh_to_xyah`: `(x, y, w, h) ↦ (x + w/2, y + h/2, w/h, h)`.  The
aspect ratio divides the width by the height with no guard. -/
def tlwh_to_xyah (tlwh : Vec) : Vec :=
  [fadd (vget tlwh 0) (fdiv (vget tlwh 2) (some 2)),
   fadd (vget tlwh 1) (fdiv (vget tlwh 3) (some 2)),
   fdiv (vget tlwh 2) (vget tlwh 3),
   vget tlwh 3]

/-- `tlwh_to_tlbr`: `(x, y, w, h) ↦ (x, y, x + w, y + h)`. -/
def tlwh_to_tlbr (tlwh : Vec) : Vec :=
  [vget tlwh 0, vget tlwh 1,
   fadd (vget tlwh 2) (vget tlwh 0), fadd (vget tlwh 3) (vget tlwh 1)]

/-- `tlbr_to_tlwh`: `(x₁, y₁, x₂, y₂) ↦ (x₁, y₁, x₂ - x₁, y₂ - y₁)`. -/
def tlbr_to_tlwh (tlbr : Vec) : Vec :=
  [vget tlbr 0, vget tlbr 1,
   fsub (vget tlbr 2) (vget tlbr 0), fsub (vget tlbr 3) (vget tlbr 1)]

/-- The `tlwh` property: read from the Kalman mean when present
(`w = a·h`, `x = cx - w/2`, `y = cy - h/2`), else the stored box. -/
def tlwh (t : STrack) : Vec :=
  match t.mean with
  | none => t.tlwh0
  | some m =>
    let w := fmul (vget m 2) (vget m 3)
    [fsub (vget m 0) (fdiv w (some 2)),
     fsub (vget m 1) (fdiv (vget m 3) (some 2)),
     w, vget m 3]

/-- The `tlbr` property. -/
def tlbr (t : STrack) : Vec := tlwh_to_tlbr t.tlwh

/-- `activate(kalman_filter, frame_id)`: draw a fresh id from the shared
counter, initiate the Kalman state from the stored box, become `Tracked`
with `tracklet_len = 0`, and set `is_activated` exactly when
`frame_id == 1`.  The counter (`BaseTrack._count`) is threaded explicitly;
the `kalman_filter` argument is stateless and needs no embedding. -/
def activate (t : STrack) (frame_id : ℤ) (count : ℤ) : STrack × ℤ :=
  let mc := KalmanFilter.initiate (tlwh_to_xyah t.tlwh0)
  ({ t with track_id := count + 1
            mean := some mc.1, covariance := some mc.2
            tracklet_len := 0, state := .Tracked
            is_activated := decide (frame_id = 1)
            frame_id := frame_id, start_frame := frame_id },
   count + 1)

/-- `_update_track` (the shared body of `update` and `re_activate`): Kalman
correction with the new detection's box, become `Tracked` and activated,
optionally draw a new id, and copy the new score. -/
def update_track (t new_track : STrack) (frame_id : ℤ) (new_id : Bool)
    (count : ℤ) : STrack × ℤ :=
  let mc := KalmanFilter.update (t.mean.getD []) (t.covariance.getD [])
    (tlwh_to_xyah new_track.tlwh)
  ({ t with frame_id := frame_id
            tracklet_len := t.tracklet_len + 1
            mean := some mc.1, covariance := some mc.2
            state := .Tracked, is_activated := true
            track_id := if new_id then count + 1 else t.track_id
            score := new_track.score },
   if new_id then count + 1 else count)

/-- `re_activate(new_track, frame_id, new_id)`. -/
def re_activate (t new_track : STrack) (frame_id : ℤ) (new_id : Bool)
    (count : ℤ) : STrack × ℤ :=
  update_track t new_track frame_id new_id count

/-- `update(new_track, frame_id)`: `_update_track` with `new_id = False`. -/
def updateWith (t new_track : STrack) (frame_id : ℤ) : STrack :=
  (update_track t new_track frame_id false 0).1

end STrack

/-! ## The object heap

`BYTETracker.update` mutates track objects in place while they are shared
between `tracked_stracks`, `lost_stracks` and the working pool, so the
embedding stores all `STrack` objects in a heap (`List STrack`); the
tracker's lists hold heap indices and mutation is `List.set`. -/

/-- Read an object from the heap. -/
def hget (heap : List STrack) (i : ℕ) : STrack := heap.getD i default

/-- Overwrite an object on the heap. -/
def hset (heap : List STrack) (i : ℕ) (t : STrack) : List STrack :=
  heap.set i t

/-- `STrack.multi_predict(stracks)`: no-op on an empty list; otherwise copy
out each track's state, zero the height velocity (index 7) of every
non-`Tracked` track, run the shared Kalman filter's `multi_predict`, and
write the results back. -/
def multi_predict_tracks (heap : List STrack) (ixs : List ℕ) : List STrack :=
  if ixs.isEmpty then heap
  else
    let means := ixs.map (fun i =>
      let t := hget heap i
      let m := t.mean.getD []
      if t.state ≠ .Tracked then m.set 7 (some 0) else m)
    let covs := ixs.map (fun i => (hget heap i).covariance.getD [])
    let mc := KalmanFilter.multi_predict means covs
    (List.zip ixs (List.zip mc.1 mc.2)).foldl
      (fun h x => hset h x.1 { hget h x.1 with mean := some x.2.1
                                               covariance := some x.2.2 })
      heap

/-! ## Track-list helpers (`cjm_byte_track.matching`, `byte_tracker`) -/

/-- `iou_distance` on track lists: extract each track's `tlbr` (the
duck-typing branch for raw arrays is `iou_distance_boxes`) and take
`1 - IoU`. -/
def iou_distance (atracks btracks : List STrack) : NpMat :=
  iou_distance_boxes (atracks.map STrack.tlbr) (btracks.map STrack.tlbr)

/-- `np.where(pairwise_distance < 0.15)` as zipped pairs, in row-major
order. -/
def dup_pairs (sa sb : List STrack) : List (ℕ × ℕ) :=
  let d := iou_distance sa sb
  ((List.range sa.length).map (fun i =>
    ((List.range sb.length).filter (fun j => flt (d.entry i j) (3/20))).map
      (fun j => (i, j)))).flatten

/-- Insert into a Python set modelled as a duplicate-free list. -/
def setInsert (l : List ℕ) (x : ℕ) : List ℕ :=
  if l.contains x then l else l ++ [x]

/-- The duplicate index sets of `remove_duplicate_stracks`: for every pair
at distance `< 0.15`, compare the ages `frame_id - start_frame`; if the
first track is strictly older the second index is a duplicate, otherwise
(including ties) the first index is. -/
def dup_sets (sa sb : List STrack) : List ℕ × List ℕ :=
  (dup_pairs sa sb).foldl
    (fun d p =>
      let ta := hget sa p.1
      let tb := hget sb p.2
      let time_a := ta.frame_id - ta.start_frame
      let time_b := tb.frame_id - tb.start_frame
      if time_a > time_b then (d.1, setInsert d.2 p.2)
      else (setInsert d.1 p.1, d.2))
    ([], [])

/-- `remove_duplicate_stracks`: drop the duplicate positions from each
list. -/
def remove_duplicate_stracks (sa sb : List STrack) :
    List STrack × List STrack :=
  let d := dup_sets sa sb
  ((sa.enum.filter (fun pi => !(d.1.contains pi.1))).map Prod.snd,
   (sb.enum.filter (fun pi => !(d.2.contains pi.1))).map Prod.snd)

/-- `remove_duplicate_stracks` on heap index lists: the duplicate sets are
computed from the resolved objects and the same positions dropped. -/
def remove_duplicate_idx (heap : List STrack) (a b : List ℕ) :
    List ℕ × List ℕ :=
  let d := dup_sets (a.map (hget heap)) (b.map (hget heap))
  ((a.enum.filter (fun pi => !(d.1.contains pi.1))).map Prod.snd,
   (b.enum.filter (fun pi => !(d.2.contains pi.1))).map Prod.snd)

/-- `joint_stracks`: the Python dict comprehension keyed by `track_id`.
Each id keeps the position of its first occurrence in `a ++ b` but the
value of its last occurrence. -/
def joint_stracks (heap : List STrack) (a b : List ℕ) : List ℕ :=
  let l := a ++ b
  let tid := fun i => (hget heap i).track_id
  (l.enum.filter (fun pi =>
    (l.take pi.1).all (fun j => decide (tid j ≠ tid pi.2)))).map
    (fun pi => ((l.filter (fun j => decide (tid j = tid pi.2))).getLast?).getD pi.2)

/-- `sub_stracks`: retain the elements of `a` whose `track_id` does not
occur in `b`. -/
def sub_stracks (heap : List STrack) (a b : List ℕ) : List ℕ :=
  let bids := b.map (fun i => (hget heap i).track_id)
  a.filter (fun i => !(bids.contains (hget heap i).track_id))

/-! ## Tracker orchestrator (`cjm_byte_track.byte_tracker`) -/

/-- The `BYTETracker` instance state.  The three track lists hold heap
indices; `count` is the process-wide `BaseTrack._count` identity counter,
which the constructor resets. -/
structure Tracker where
  track_thresh : ℚ
  match_thresh : ℚ
  det_thresh : ℚ
  buffer_size : ℤ
  max_time_lost : ℤ
  frame_id : ℤ
  tracked_stracks : List ℕ
  lost_stracks : List ℕ
  removed_stracks : List ℕ
  count : ℤ
  heap : List STrack
deriving DecidableEq, Repr

namespace BYTETracker

/-- Python `int()` applied to a rational: truncation toward zero. -/
def pyInt (q : ℚ) : ℤ := if q < 0 then -(Int.floor (-q)) else Int.floor q

/-- `BYTETracker.__init__(track_thresh, track_buffer, match_thresh,
frame_rate)`: store the thresholds, derive
`det_thresh = track_thresh + 0.1` and
`max_time_lost = int(frame_rate / 30.0 * track_buffer)`, start with empty
lists, and reset the identity counter.  No argument is validated. -/
def mkTracker (track_thresh : ℚ) (track_buffer : ℤ) (match_thresh : ℚ)
    (frame_rate : ℤ) : Tracker :=
  let buffer_size := pyInt ((frame_rate : ℚ) / 30 * (track_buffer : ℚ))
  { track_thresh := track_thresh
    match_thresh := match_thresh
    det_thresh := track_thresh + 1/10
    buffer_size := buffer_size
    max_time_lost := buffer_size
    frame_id := 0
    tracked_stracks := []
    lost_stracks := []
    removed_stracks := []
    count := 0
    heap := [] }

/-- `_process_output`: with exactly 5 columns the score is column 4,
otherwise the product of columns 4 and 5; the boxes are columns 0–3. -/
def process_output (rows : List (List ℚ)) (ncols : ℕ) :
    List ℚ × List (List ℚ) :=
  let scores :=
    if ncols = 5 then rows.map (fun r => r.getD 4 0)
    else rows.map (fun r => r.getD 4 0 * r.getD 5 0)
  (scores, rows.map (fun r => r.take 4))

/-- `_scale_bboxes`: divide every coordinate by
`min(img_size[0] / img_h, img_size[1] / img_w)`. -/
def scale_bboxes (img_info img_size : ℚ × ℚ) (bboxes : List (List ℚ)) :
    List Vec :=
  let scale := fmin (fdiv (some img_size.1) (some img_info.1))
    (fdiv (some img_size.2) (some img_info.2))
  bboxes.map (fun b => b.map (fun x => fdiv (some x) scale))

/-- `_get_detections`: one fresh `STrack` per kept detection, with the box
converted from `tlbr` to `tlwh`. -/
def get_detections (dets : List Vec) (scores_keep : List ℚ) : List STrack :=
  (dets.zip scores_keep).map (fun p => STrack.mkNew (STrack.tlbr_to_tlwh p.1) p.2)

/-- The first-association selection `bboxes[scores > track_thresh]`,
`scores[scores > track_thresh]`. -/
def select_high (bboxes : List Vec) (scores : List ℚ) (thresh : ℚ) :
    List Vec × List ℚ :=
  let kept := (bboxes.zip scores).filter (fun p => decide (thresh < p.2))
  (kept.map Prod.fst, kept.map Prod.snd)

/-- The second-association selection
`np.logical_and(scores > 0.1, scores < track_thresh)`: both comparisons are
strict. -/
def select_low (bboxes : List Vec) (scores : List ℚ) (thresh : ℚ) :
    List Vec × List ℚ :=
  let kept := (bboxes.zip scores).filter
    (fun p => decide ((1/10 : ℚ) < p.2) && decide (p.2 < thresh))
  (kept.map Prod.fst, kept.map Prod.snd)

/-- `_update_tracks`: for every matched `(itracked, idet)` pair, a track in
state `Tracked` is updated and appended to `activated_stracks`; any other
track is re-activated (keeping its id) and appended to `refind_stracks`.
Returns the mutated heap, the identity counter, and the two lists. -/
def update_tracks (heap : List STrack) (count : ℤ)
    (stracks detections : List ℕ) (ms : List (ℕ × ℕ)) (frame_id : ℤ) :
    List STrack × ℤ × List ℕ × List ℕ :=
  ms.foldl
    (fun acc m =>
      let ti := stracks.getD m.1 0
      let di := detections.getD m.2 0
      let track := hget acc.1 ti
      let det := hget acc.1 di
      if track.state = .Tracked then
        let r := STrack.update_track track det frame_id false acc.2.1
        (hset acc.1 ti r.1, r.2, acc.2.2.1 ++ [ti], acc.2.2.2)
      else
        let r := STrack.re_activate track det frame_id false acc.2.1
        (hset acc.1 ti r.1, r.2, acc.2.2.1, acc.2.2.2 ++ [ti]))
    (heap, count, [], [])

/-- The tail of `BYTETracker.update` (source lines 239–253): expire stale
lost tracks (appending them to the frame's removed list twice: once in the
loop and once in the following list-extend), rebuild `tracked_stracks` from
its surviving members plus the activated and refound tracks, subtract the
new tracked set and the PREVIOUS removed list from the lost list, extend
the removed list, and de-duplicate tracked against lost. -/
def expire_and_merge (heap0 : List STrack)
    (tracked lost removed : List ℕ)
    (activated refind lost_new removed_new0 : List ℕ)
    (frame_id max_time_lost : ℤ) :
    List STrack × List ℕ × List ℕ × List ℕ :=
  let step := lost.foldl
    (fun acc i =>
      let t := hget acc.1 i
      if max_time_lost < frame_id - t.end_frame then
        (hset acc.1 i t.mark_removed, acc.2 ++ [i])
      else acc)
    (heap0, removed_new0)
  let heap1 := step.1
  let removed_new := step.2 ++ lost.filter
    (fun i => decide (max_time_lost < frame_id - (hget heap1 i).end_frame))
  let trackedA := tracked.filter (fun i => decide ((hget heap1 i).state = .Tracked))
  let trackedB := joint_stracks heap1 trackedA activated
  let trackedC := joint_stracks heap1 trackedB refind
  let lostA := sub_stracks heap1 lost trackedC
  let lostB := lostA ++ lost_new
  let lostC := sub_stracks heap1 lostB removed
  let removedF := removed ++ removed_new
  let tl := remove_duplicate_idx heap1 trackedC lostC
  (heap1, tl.1, tl.2, removedF)

/-- `BYTETracker.update(output_results, img_info, img_size)`: the per-frame
pipeline.  `output_rows`/`out_ncols` are the detection matrix; the result
is the updated tracker together with the returned list of activated
tracked indices, or `none` when `scipy.optimize.linear_sum_assignment`
would raise (a cost matrix with a non-finite entry). -/
def update (tr : Tracker) (output_rows : List (List ℚ)) (out_ncols : ℕ)
    (img_info img_size : ℚ × ℚ) : Option (Tracker × List ℕ) :=
  let frame_id := tr.frame_id + 1
  let so := process_output output_rows out_ncols
  let bboxes := scale_bboxes img_info img_size so.2
  let hi := select_high bboxes so.1 tr.track_thresh
  let lo := select_low bboxes so.1 tr.track_thresh
  let dets1v := get_detections hi.1 hi.2
  let dets2v := get_detections lo.1 lo.2
  let base1 := tr.heap.length
  let heap0 := tr.heap ++ dets1v ++ dets2v
  let dets1 := (List.range dets1v.length).map (fun k => base1 + k)
  let base2 := base1 + dets1v.length
  let dets2 := (List.range dets2v.length).map (fun k => base2 + k)
  let unconfirmed := tr.tracked_stracks.filter (fun i => !(hget heap0 i).is_activated)
  let tracked1 := tr.tracked_stracks.filter (fun i => (hget heap0 i).is_activated)
  let pool := joint_stracks heap0 tracked1 tr.lost_stracks
  let heap1 := multi_predict_tracks heap0 pool
  match linear_assignment (iou_distance (pool.map (hget heap1)) (dets1.map (hget heap1)))
      tr.match_thresh with
  | none => none
  | some m1 =>
    let r1 := update_tracks heap1 tr.count pool dets1 m1.1 frame_id
    let heap2 := r1.1
    let r_tracked := (m1.2.1.map (fun i => pool.getD i 0)).filter
      (fun ti => decide ((hget heap2 ti).state = .Tracked))
    match linear_assignment (iou_distance (r_tracked.map (hget heap2)) (dets2.map (hget heap2)))
        (1/2) with
    | none => none
    | some m2 =>
      let r2 := update_tracks heap2 r1.2.1 r_tracked dets2 m2.1 frame_id
      let lostStep := m2.2.1.foldl
        (fun acc it =>
          let ti := r_tracked.getD it 0
          let t := hget acc.1 ti
          if t.state ≠ .Lost then (hset acc.1 ti t.mark_lost, acc.2 ++ [ti])
          else acc)
        (r2.1, ([] : List ℕ))
      let heap4 := lostStep.1
      let detsR := m1.2.2.map (fun i => dets1.getD i 0)
      match linear_assignment
          (iou_distance (unconfirmed.map (hget heap4)) (detsR.map (hget heap4)))
          (7/10) with
      | none => none
      | some m3 =>
        let uStep := m3.1.foldl
          (fun acc m =>
            let ti := unconfirmed.getD m.1 0
            let di := detsR.getD m.2 0
            (hset acc.1 ti (STrack.updateWith (hget acc.1 ti) (hget acc.1 di) frame_id),
             acc.2 ++ [ti]))
          (heap4, r1.2.2.1 ++ r2.2.2.1)
        let remStep := m3.2.1.foldl
          (fun acc it =>
            let ti := unconfirmed.getD it 0
            (hset acc.1 ti (hget acc.1 ti).mark_removed, acc.2 ++ [ti]))
          (uStep.1, ([] : List ℕ))
        let spawn := m3.2.2.foldl
          (fun acc inew =>
            let di := detsR.getD inew 0
            let t := hget acc.1 di
            if tr.det_thresh ≤ t.score then
              let r := STrack.activate t frame_id acc.2.1
              (hset acc.1 di r.1, r.2, acc.2.2 ++ [di])
            else acc)
          (remStep.1, r2.2.1, uStep.2)
        let em := expire_and_merge spawn.1 tr.tracked_stracks tr.lost_stracks
          tr.removed_stracks spawn.2.2 (r1.2.2.2 ++ r2.2.2.2) lostStep.2 remStep.2
          frame_id tr.max_time_lost
        let tr' := { tr with
          frame_id := frame_id
          tracked_stracks := em.2.1
          lost_stracks := em.2.2.1
          removed_stracks := em.2.2.2
          count := spawn.2.1
          heap := em.1 }
        some (tr', em.2.1.filter (fun i => (hget em.1 i).is_activated))

end BYTETracker

/-! ## Supporting lemmas -/

theorem hget_hset_self (h : List STrack) (i : ℕ) (v : STrack)
    (hi : i < h.length) : hget (hset h i v) i = v := by
  simp [hget, hset, List.getD_eq_getElem?_getD, List.getElem?_set, hi]

theorem hget_hset_other (h : List STrack) (i j : ℕ) (v : STrack)
    (hij : i ≠ j) : hget (hset h j v) i = hget h i := by
  simp [hget, hset, List.getD_eq_getElem?_getD, List.getElem?_set, Ne.symm hij]

theorem length_hset (h : List STrack) (i : ℕ) (v : STrack) :
    (hset h i v).length = h.length := by
  simp [hset]

theorem getD_range_map (l : List ℕ) :
    (List.range l.length).map (fun i => l.getD i 0) = l := by
  apply List.ext_getElem
  · simp
  · intro n h1 h2
    simp only [List.getElem_map, List.getElem_range, List.getD_eq_getElem?_getD]
    rw [List.getElem?_eq_getElem (by simpa using h2)]
    rfl

theorem foldl_range_getD {α : Type} (l : List ℕ) (f : α → ℕ → α) (b : α) :
    (List.range l.length).foldl (fun acc i => f acc (l.getD i 0)) b =
      l.foldl f b := by
  conv_rhs => rw [← getD_range_map l, List.foldl_map]

/-- The non-Kalman fields of a track, used to state that prediction steps
only touch `mean` and `covariance`. -/
def STrack.core (t : STrack) :
    Vec × ℚ × ℤ × Bool × TrackState × ℤ × ℤ × ℤ :=
  (t.tlwh0, t.score, t.track_id, t.is_activated, t.state, t.start_frame,
   t.frame_id, t.tracklet_len)

theorem core_hset_pred (h : List STrack) (j i : ℕ) (m : Vec) (c : Mat) :
    STrack.core (hget (hset h j
      { hget h j with mean := some m, covariance := some c }) i) =
    STrack.core (hget h i) := by
  by_cases hij : i = j
  · cases hij
    by_cases hlen : j < h.length
    · rw [hget_hset_self h j _ hlen]
      rfl
    · simp only [hset]
      rw [List.set_eq_of_length_le (by omega)]
  · rw [hget_hset_other h i j _ hij]

theorem core_foldl_pred (zs : List (ℕ × Vec × Mat)) (h : List STrack) (i : ℕ) :
    STrack.core (hget (zs.foldl
      (fun hh x => hset hh x.1 { hget hh x.1 with mean := some x.2.1
                                                  covariance := some x.2.2 }) h) i) =
    STrack.core (hget h i) := by
  induction zs generalizing h with
  | nil => rfl
  | cons z t ih =>
    rw [List.foldl_cons, ih, core_hset_pred]

theorem length_foldl_pred (zs : List (ℕ × Vec × Mat)) (h : List STrack) :
    (zs.foldl
      (fun hh x => hset hh x.1 { hget hh x.1 with mean := some x.2.1
                                                  covariance := some x.2.2 }) h).length =
    h.length := by
  induction zs generalizing h with
  | nil => rfl
  | cons z t ih => rw [List.foldl_cons, ih, length_hset]

theorem core_multi_predict (h : List STrack) (l : List ℕ) (i : ℕ) :
    STrack.core (hget (multi_predict_tracks h l) i) = STrack.core (hget h i) := by
  unfold multi_predict_tracks
  split
  · rfl
  · exact core_foldl_pred _ h i

theorem length_multi_predict (h : List STrack) (l : List ℕ) :
    (multi_predict_tracks h l).length = h.length := by
  unfold multi_predict_tracks
  split
  · rfl
  · exact length_foldl_pred _ h

theorem state_multi_predict (h : List STrack) (l : List ℕ) (i : ℕ) :
    (hget (multi_predict_tracks h l) i).state = (hget h i).state :=
  congrArg (fun c => c.2.2.2.2.1) (core_multi_predict h l i)

theorem is_activated_multi_predict (h : List STrack) (l : List ℕ) (i : ℕ) :
    (hget (multi_predict_tracks h l) i).is_activated = (hget h i).is_activated :=
  congrArg (fun c => c.2.2.2.1) (core_multi_predict h l i)

theorem track_id_multi_predict (h : List STrack) (l : List ℕ) (i : ℕ) :
    (hget (multi_predict_tracks h l) i).track_id = (hget h i).track_id :=
  congrArg (fun c => c.2.2.1) (core_multi_predict h l i)

theorem frame_id_multi_predict (h : List STrack) (l : List ℕ) (i : ℕ) :
    (hget (multi_predict_tracks h l) i).frame_id = (hget h i).frame_id :=
  congrArg (fun c => c.2.2.2.2.2.2.1) (core_multi_predict h l i)

theorem start_frame_multi_predict (h : List STrack) (l : List ℕ) (i : ℕ) :
    (hget (multi_predict_tracks h l) i).start_frame = (hget h i).start_frame :=
  congrArg (fun c => c.2.2.2.2.2.1) (core_multi_predict h l i)

theorem score_multi_predict (h : List STrack) (l : List ℕ) (i : ℕ) :
    (hget (multi_predict_tracks h l) i).score = (hget h i).score :=
  congrArg (fun c => c.2.1) (core_multi_predict h l i)

theorem multi_predict_nil (h : List STrack) : multi_predict_tracks h [] = h := by
  simp [multi_predict_tracks]

theorem hget_nil (n : ℕ) : hget [] n = default := rfl

theorem hget_cons_zero (a : STrack) (l : List STrack) : hget (a :: l) 0 = a := rfl

theorem hget_cons_succ (a : STrack) (l : List STrack) (n : ℕ) :
    hget (a :: l) (n + 1) = hget l n := rfl

theorem state_mark_lost (t : STrack) : t.mark_lost.state = TrackState.Lost := rfl

theorem track_id_mark_lost (t : STrack) : t.mark_lost.track_id = t.track_id := rfl

theorem frame_id_mark_lost (t : STrack) : t.mark_lost.frame_id = t.frame_id := rfl

theorem is_activated_mark_lost (t : STrack) :
    t.mark_lost.is_activated = t.is_activated := rfl

theorem start_frame_mark_lost (t : STrack) :
    t.mark_lost.start_frame = t.start_frame := rfl

theorem state_mark_removed (t : STrack) :
    t.mark_removed.state = TrackState.Removed := rfl

theorem track_id_mark_removed (t : STrack) :
    t.mark_removed.track_id = t.track_id := rfl

theorem frame_id_mark_removed (t : STrack) :
    t.mark_removed.frame_id = t.frame_id := rfl

theorem is_activated_mark_removed (t : STrack) :
    t.mark_removed.is_activated = t.is_activated := rfl

theorem start_frame_mark_removed (t : STrack) :
    t.mark_removed.start_frame = t.start_frame := rfl

theorem ts_tracked_lost : (TrackState.Tracked = TrackState.Lost) = False :=
  eq_false (by decide)

theorem ts_lost_tracked : (TrackState.Lost = TrackState.Tracked) = False :=
  eq_false (by decide)

theorem ts_tracked_removed : (TrackState.Tracked = TrackState.Removed) = False :=
  eq_false (by decide)

theorem ts_removed_tracked : (TrackState.Removed = TrackState.Tracked) = False :=
  eq_false (by decide)

theorem ts_lost_removed : (TrackState.Lost = TrackState.Removed) = False :=
  eq_false (by decide)

theorem ts_removed_lost : (TrackState.Removed = TrackState.Lost) = False :=
  eq_false (by decide)

/-- Symbolic evaluation of `BYTETracker.update` on a frame with no
detections: both detection lists are empty, every assignment returns no
matches, all `Tracked` pool members are marked lost, all unconfirmed tracks
are marked removed, and the lists are merged.  The Kalman prediction stays
abstract (`multi_predict_tracks`). -/
theorem update_no_dets (tr : Tracker) (n : ℕ) (ii is : ℚ × ℚ) :
    BYTETracker.update tr [] n ii is =
      (let unconfirmed := tr.tracked_stracks.filter
          (fun i => !(hget tr.heap i).is_activated)
       let tracked1 := tr.tracked_stracks.filter
          (fun i => (hget tr.heap i).is_activated)
       let pool := joint_stracks tr.heap tracked1 tr.lost_stracks
       let heap1 := multi_predict_tracks tr.heap pool
       let r_tracked := ((List.range pool.length).map (fun i => pool.getD i 0)).filter
           (fun ti => decide ((hget heap1 ti).state = .Tracked))
       let lostStep := (List.range r_tracked.length).foldl (fun acc it =>
           if (hget acc.1 (r_tracked.getD it 0)).state ≠ .Lost then
             (hset acc.1 (r_tracked.getD it 0)
               (hget acc.1 (r_tracked.getD it 0)).mark_lost,
              acc.2 ++ [r_tracked.getD it 0]) else acc)
         (heap1, ([] : List ℕ))
       let remStep := (List.range unconfirmed.length).foldl (fun acc it =>
           (hset acc.1 (unconfirmed.getD it 0)
             (hget acc.1 (unconfirmed.getD it 0)).mark_removed,
            acc.2 ++ [unconfirmed.getD it 0]))
         (lostStep.1, ([] : List ℕ))
       let em := BYTETracker.expire_and_merge remStep.1 tr.tracked_stracks tr.lost_stracks
         tr.removed_stracks [] [] lostStep.2 remStep.2 (tr.frame_id + 1) tr.max_time_lost
       some ({ tr with
               frame_id := tr.frame_id + 1
               tracked_stracks := em.2.1
               lost_stracks := em.2.2.1
               removed_stracks := em.2.2.2
               heap := em.1 },
             em.2.1.filter (fun i => (hget em.1 i).is_activated))) := by
  simp only [BYTETracker.update, BYTETracker.process_output, BYTETracker.scale_bboxes,
    BYTETracker.select_high, BYTETracker.select_low, BYTETracker.get_detections,
    List.map_nil, List.zip_nil_left, List.zip_nil_right, List.filter_nil,
    List.length_nil, List.range_zero, List.append_nil, multi_predict_nil,
    iou_distance, iou_distance_boxes, ious, List.isEmpty_nil, Bool.or_true,
    Bool.true_or, linear_assignment, BYTETracker.update_tracks, List.length_map,
    List.foldl_nil, eq_self_iff_true, or_true, true_or, if_true,
    List.nil_append]

/-- Symbolic evaluation of `BYTETracker.update` on a fresh tracker (empty
track lists and heap) fed a single 5-column detection whose score exceeds
both `track_thresh` and `det_thresh`: the detection fails every
association, survives to the spawn step and is activated, becoming the
single member of `tracked_stracks`; it is emitted only when the frame is
frame 1. -/
theorem update_one_spawn (tr : Tracker) (x1 y1 x2 y2 s : ℚ) (ii is : ℚ × ℚ)
    (htr : tr.tracked_stracks = []) (hlo : tr.lost_stracks = [])
    (hheap : tr.heap = [])
    (hhi : tr.track_thresh < s) (hdt : tr.det_thresh ≤ s) :
    BYTETracker.update tr [[x1, y1, x2, y2, s]] 5 ii is =
      (let sc := fmin (fdiv (some is.1) (some ii.1)) (fdiv (some is.2) (some ii.2))
       let spawned := (STrack.activate
         (STrack.mkNew (STrack.tlbr_to_tlwh
           [fdiv (some x1) sc, fdiv (some y1) sc, fdiv (some x2) sc, fdiv (some y2) sc]) s)
         (tr.frame_id + 1) tr.count).1
       some ({ tr with
               frame_id := tr.frame_id + 1
               tracked_stracks := [0]
               lost_stracks := []
               count := tr.count + 1
               heap := [spawned] },
             if tr.frame_id + 1 = 1 then [0] else [])) := by
  have h1 : decide (tr.track_thresh < s) = true := decide_eq_true hhi
  have h2 : decide (s < tr.track_thresh) = false :=
    decide_eq_false (not_lt.mpr (le_of_lt hhi))
  simp only [BYTETracker.update, BYTETracker.process_output, BYTETracker.scale_bboxes,
    BYTETracker.select_high, BYTETracker.select_low, BYTETracker.get_detections,
    htr, hlo, hheap, h1, h2, hdt,
    List.map_nil, List.map_cons, List.zip_nil_left, List.zip_nil_right,
    List.zip_cons_cons, List.filter_nil, List.filter_cons, List.length_nil,
    List.length_cons, List.range_zero, List.append_nil, List.nil_append,
    multi_predict_nil, iou_distance, iou_distance_boxes, ious, List.isEmpty_nil,
    List.isEmpty_cons, Bool.or_true, Bool.true_or, Bool.false_or, Bool.or_false,
    Bool.and_false, Bool.false_and, linear_assignment, BYTETracker.update_tracks,
    List.length_map, List.foldl_nil, List.foldl_cons, eq_self_iff_true, or_true,
    true_or, if_true, if_false, List.getD_cons_zero,
    List.getD_cons_succ, List.take_succ_cons, List.take_zero, List.range_succ,
    joint_stracks, sub_stracks, remove_duplicate_idx, dup_sets, dup_pairs,
    setInsert, BYTETracker.expire_and_merge, hget, hset, STrack.mkNew,
    STrack.activate, decide_eq_true_eq, Bool.false_eq_true, Bool.true_eq_false,
    ite_true, ite_false,
    List.enum_nil, List.enum_cons, List.enumFrom_nil, List.enumFrom_cons,
    List.all_nil, List.all_cons, List.take_nil, Option.getD_some, Option.getD_none,
    List.getLast?_nil, List.getLast?_singleton, List.contains_nil, List.contains_cons,
    Bool.not_false, Bool.not_true, List.flatten_nil, List.flatten_cons,
    zero_add, add_zero, List.set_cons_zero, List.set_cons_succ]

/-! ## Claim C1 -/

/-- A tracker with the default configuration (`track_thresh = 0.25`,
`track_buffer = 30`, `match_thresh = 0.8`, `frame_rate = 30`). -/
def c1_start : Tracker := BYTETracker.mkTracker (1/4) 30 (4/5) 30

/-- Frame 1 of the C1 scenario: an empty detection set leaves the fresh
tracker unchanged except for the frame counter. -/
theorem c1_frame1 : BYTETracker.update c1_start [] 5 (720, 1280) (720, 1280) =
    some ({ c1_start with frame_id := 1 }, []) := by
  rw [update_no_dets]
  simp [c1_start, BYTETracker.mkTracker, joint_stracks, multi_predict_nil,
    BYTETracker.expire_and_merge, sub_stracks, remove_duplicate_idx, dup_sets,
    dup_pairs, iou_distance, iou_distance_boxes, ious, hget]

/-- Claim C1 is false on the code: the claim says that between `update()`
calls every track with `state == Tracked` has `is_activated = true`, for
every frame in which `activate` ran.  Counterexample: feed a default
tracker an empty frame and then one high-confidence detection
`[100, 100, 200, 300, 0.9]` in frame 2.  The spawned track is merged into
`tracked_stracks` with `state = Tracked` but `is_activated = false`,
because `activate` sets `is_activated ← (frame_id == 1)` and the frame is
2 (it is also withheld from the returned list). -/
theorem C1_counterexample :
    ((BYTETracker.update c1_start [] 5 (720, 1280) (720, 1280)).bind (fun p =>
        BYTETracker.update p.1 [[100, 100, 200, 300, 9/10]] 5 (720, 1280) (720, 1280))).map
      (fun p => (p.1.tracked_stracks.map (fun i =>
        ((hget p.1.heap i).state, (hget p.1.heap i).is_activated)), p.2)) =
    some ([(TrackState.Tracked, false)], []) := by
  rw [c1_frame1, Option.some_bind,
    update_one_spawn _ _ _ _ _ _ _ _ rfl rfl rfl
      (by norm_num [c1_start, BYTETracker.mkTracker])
      (by norm_num [c1_start, BYTETracker.mkTracker])]
  norm_num [c1_start, BYTETracker.mkTracker, hget, STrack.activate, STrack.mkNew]

/-- Claim C1, amended: after `activate(kalman, frame_id)` a track is
`Tracked` with `is_activated = (frame_id == 1)` — so `Tracked` implies
`is_activated` only for tracks activated in frame 1 — while any
`update`/`re_activate` (`_update_track`) leaves the track `Tracked` with
`is_activated = true`; hence only freshly spawned tracks of frames ≥ 2
(the unconfirmed tracks) are `Tracked` without being activated. -/
theorem C1_tracked_activation (t nt : STrack) (fid cnt : ℤ) (b : Bool) :
    ((STrack.activate t fid cnt).1.state = TrackState.Tracked ∧
      (STrack.activate t fid cnt).1.is_activated = decide (fid = 1)) ∧
    ((STrack.update_track t nt fid b cnt).1.state = TrackState.Tracked ∧
      (STrack.update_track t nt fid b cnt).1.is_activated = true) :=
  ⟨⟨rfl, rfl⟩, ⟨rfl, rfl⟩⟩



/-! ## Claim C2 -/

/-- A tracker with `track_buffer = 1`, so `max_time_lost = 1`. -/
def c2_start : Tracker := BYTETracker.mkTracker (1/4) 1 (4/5) 30

/-- The letterbox scale of the C2 scenario (`min(10/10, 10/10)`). -/
def c2_sc : NpF := fmin (fdiv (some 10) (some 10)) (fdiv (some 10) (some 10))

/-- The track spawned in frame 1 of the C2 scenario. -/
def c2_det : STrack := (STrack.activate (STrack.mkNew (STrack.tlbr_to_tlwh
  [fdiv (some 0) c2_sc, fdiv (some 0) c2_sc, fdiv (some 10) c2_sc, fdiv (some 10) c2_sc])
  (9/10)) 1 0).1

/-- Tracker state after frame 1 of the C2 scenario. -/
def c2_s1 : Tracker :=
  { c2_start with frame_id := 1, tracked_stracks := [0], count := 1, heap := [c2_det] }

/-- Frame 1 of the C2 scenario: one high-confidence detection spawns a
track. -/
theorem c2_frame1 :
    BYTETracker.update c2_start [[0, 0, 10, 10, 9/10]] 5 (10, 10) (10, 10) =
      some (c2_s1, [0]) := by
  rw [update_one_spawn _ _ _ _ _ _ _ _ rfl rfl rfl
    (by norm_num [c2_start, BYTETracker.mkTracker])
    (by norm_num [c2_start, BYTETracker.mkTracker])]
  simp [c2_s1, c2_start, c2_det, c2_sc, BYTETracker.mkTracker]

/-- The heap after the frame-2 prediction step. -/
def c2_heap1 : List STrack := multi_predict_tracks [c2_det] [0]

/-- The heap after frame 2 marks the unmatched track lost. -/
def c2_heap2 : List STrack := hset c2_heap1 0 (hget c2_heap1 0).mark_lost

/-- Tracker state after frame 2 of the C2 scenario: the track is lost. -/
def c2_s2 : Tracker :=
  { c2_s1 with frame_id := 2, tracked_stracks := [], lost_stracks := [0], heap := c2_heap2 }

set_option maxHeartbeats 1000000 in
/-- Frame 2 of the C2 scenario: no detections, the track goes lost. -/
theorem c2_frame2 :
    BYTETracker.update c2_s1 [] 5 (10, 10) (10, 10) = some (c2_s2, []) := by
  rw [update_no_dets]
  simp [c2_s1, c2_s2, c2_start, c2_heap1, c2_heap2, BYTETracker.mkTracker,
    c2_det, STrack.activate, STrack.mkNew,
    STrack.end_frame, state_multi_predict, is_activated_multi_predict,
    track_id_multi_predict, frame_id_multi_predict, length_multi_predict,
    hget_hset_self, length_hset, hget_nil, hget_cons_zero, hget_cons_succ,
    state_mark_lost, track_id_mark_lost, frame_id_mark_lost,
    is_activated_mark_lost, start_frame_mark_lost,
    state_mark_removed, track_id_mark_removed, frame_id_mark_removed,
    is_activated_mark_removed, start_frame_mark_removed,
    ts_tracked_lost, ts_lost_tracked, ts_tracked_removed, ts_removed_tracked,
    ts_lost_removed, ts_removed_lost,
    joint_stracks, sub_stracks, remove_duplicate_idx,
    dup_sets, dup_pairs, iou_distance, iou_distance_boxes, ious,
    BYTETracker.expire_and_merge, setInsert,
    List.range_succ, List.foldl_append, List.foldl_cons, List.foldl_nil,
    List.filter_cons, List.filter_nil, List.map_cons, List.map_nil,
    List.enum_nil, List.enum_cons, List.enumFrom_nil, List.enumFrom_cons,
    List.all_nil, List.all_cons, List.take_nil, List.take_succ_cons, List.take_zero,
    Option.getD_some, Option.getD_none, List.getLast?_nil, List.getLast?_singleton,
    List.contains_nil, List.contains_cons, List.flatten_nil, List.flatten_cons,
    List.getD_cons_zero, List.getD_cons_succ, List.isEmpty_nil, List.isEmpty_cons,
    List.length_nil, List.length_cons, List.append_nil, List.nil_append,
    List.set_cons_zero, List.set_cons_succ]



/-- The heap after the frame-3 prediction step. -/
def c2_heap3 : List STrack := multi_predict_tracks c2_heap2 [0]

/-- The heap after frame 3 expires the lost track. -/
def c2_heap4 : List STrack := hset c2_heap3 0 (hget c2_heap3 0).mark_removed

/-- Tracker state after frame 3: the expired track (state `Removed`) is
still a member of `lost_stracks` while also appearing twice in
`removed_stracks`. -/
def c2_s3 : Tracker :=
  { c2_s2 with frame_id := 3, removed_stracks := [0, 0], heap := c2_heap4 }

set_option maxHeartbeats 1000000 in
/-- Frame 3 of the C2 scenario: the lost track expires
(`frame_id - end_frame = 2 > max_time_lost = 1`), is marked `Removed` and
appended to the removed list twice, yet remains in the lost list because
the lost list is only subtracted against the previous removed list. -/
theorem c2_frame3 :
    BYTETracker.update c2_s2 [] 5 (10, 10) (10, 10) = some (c2_s3, []) := by
  rw [update_no_dets]
  norm_num [c2_s2, c2_s3, c2_s1, c2_start, c2_heap1, c2_heap2, c2_heap3, c2_heap4,
    BYTETracker.mkTracker, BYTETracker.pyInt, Int.floor_one,
    c2_det, STrack.activate, STrack.mkNew,
    STrack.end_frame, state_multi_predict, is_activated_multi_predict,
    track_id_multi_predict, frame_id_multi_predict, length_multi_predict,
    hget_hset_self, length_hset, hget_nil, hget_cons_zero, hget_cons_succ,
    state_mark_lost, track_id_mark_lost, frame_id_mark_lost,
    is_activated_mark_lost, start_frame_mark_lost,
    state_mark_removed, track_id_mark_removed, frame_id_mark_removed,
    is_activated_mark_removed, start_frame_mark_removed,
    ts_tracked_lost, ts_lost_tracked, ts_tracked_removed, ts_removed_tracked,
    ts_lost_removed, ts_removed_lost,
    joint_stracks, sub_stracks, remove_duplicate_idx,
    dup_sets, dup_pairs, iou_distance, iou_distance_boxes, ious,
    BYTETracker.expire_and_merge, setInsert,
    List.range_succ, List.foldl_append, List.foldl_cons, List.foldl_nil,
    List.filter_cons, List.filter_nil, List.map_cons, List.map_nil,
    List.enum_nil, List.enum_cons, List.enumFrom_nil, List.enumFrom_cons,
    List.all_nil, List.all_cons, List.take_nil, List.take_succ_cons, List.take_zero,
    Option.getD_some, Option.getD_none, List.getLast?_nil, List.getLast?_singleton,
    List.contains_nil, List.contains_cons, List.flatten_nil, List.flatten_cons,
    List.getD_cons_zero, List.getD_cons_succ, List.isEmpty_nil, List.isEmpty_cons,
    List.length_nil, List.length_cons, List.append_nil, List.nil_append,
    List.set_cons_zero, List.set_cons_succ]

set_option maxHeartbeats 800000 in
/-- Claim C2 is false on the code: the claim says every track is in
exactly one of the three lists, matching its state, including the frame in
which a lost track expires.  Counterexample: a track born in frame 1 and
lost in frame 2 expires in frame 3 (with `max_time_lost = 1`); after that
`update()` the track has state `Removed` but is a member of BOTH
`lost_stracks` and `removed_stracks` (the latter twice). -/
theorem C2_counterexample :
    (((BYTETracker.update c2_start [[0, 0, 10, 10, 9/10]] 5 (10, 10) (10, 10)).bind
        (fun p => BYTETracker.update p.1 [] 5 (10, 10) (10, 10))).bind
        (fun p => BYTETracker.update p.1 [] 5 (10, 10) (10, 10))).map
      (fun p => (p.1.lost_stracks, p.1.removed_stracks, (hget p.1.heap 0).state)) =
    some ([0], [0, 0], TrackState.Removed) := by
  rw [c2_frame1, Option.some_bind, c2_frame2, Option.some_bind, c2_frame3]
  simp [c2_s3, c2_s2, c2_heap4, c2_heap3, c2_heap2, c2_heap1, hget_hset_self,
    length_multi_predict, length_hset, state_mark_removed]



/-- Claim C2, amended: in the frame in which a lost track expires past
`max_time_lost`, the track is marked `Removed` and appended to the removed
list twice (once by the expiry loop, once by the duplicated list-extend),
but it remains a member of the lost list for that frame, because the lost
list is subtracted only against the removed list from BEFORE the current
frame; the exactly-one-list invariant therefore fails in expiry frames
(shown here for a frame with no tracked, activated, refound or newly lost
tracks, the configuration of the counterexample). -/
theorem C2_expired_track_in_lost_and_removed (heap : List STrack) (k : ℕ)
    (removed : List ℕ) (frame_id mtl : ℤ)
    (hk : k < heap.length)
    (hexp : mtl < frame_id - (hget heap k).frame_id)
    (hid : (hget heap k).track_id ∉ removed.map (fun i => (hget heap i).track_id)) :
    BYTETracker.expire_and_merge heap [] [k] removed [] [] [] [] frame_id mtl =
      (hset heap k (hget heap k).mark_removed, [], [k], removed ++ [k, k]) ∧
    (hget (hset heap k (hget heap k).mark_removed) k).state = TrackState.Removed := by
  have h1 : hget (hset heap k (hget heap k).mark_removed) k = (hget heap k).mark_removed :=
    hget_hset_self heap k _ hk
  have hids : ∀ i : ℕ, (hget (hset heap k (hget heap k).mark_removed) i).track_id
      = (hget heap i).track_id := by
    intro i
    by_cases hik : i = k
    · cases hik
      rw [h1, track_id_mark_removed]
    · rw [hget_hset_other heap i k _ hik]
  refine ⟨?_, by rw [h1, state_mark_removed]⟩
  simp only [BYTETracker.expire_and_merge, STrack.end_frame, List.foldl_cons,
    List.foldl_nil, List.nil_append, List.append_nil, hexp, if_true, ite_true,
    h1, hids, frame_id_mark_removed, track_id_mark_removed, decide_eq_true_eq,
    List.filter_cons, List.filter_nil, joint_stracks, sub_stracks,
    remove_duplicate_idx, dup_sets, dup_pairs, iou_distance, iou_distance_boxes,
    ious, setInsert, List.map_nil, List.map_cons, List.enum_nil, List.enum_cons,
    List.enumFrom_nil, List.enumFrom_cons, List.all_nil, List.all_cons,
    List.take_nil, List.contains_nil, List.flatten_nil, List.flatten_cons,
    List.isEmpty_nil, List.isEmpty_cons, List.length_nil, List.length_cons,
    Bool.not_false, Bool.not_true, List.range_zero, List.range_succ,
    Option.getD_some, Option.getD_none, List.getLast?_nil, List.getLast?_singleton,
    List.getD_cons_zero]
  simp [hid, hexp]

/-- A lost track with `frame_id = 1`, used to witness
`C2_expired_track_in_lost_and_removed`. -/
def c2_wit : STrack :=
  { STrack.mkNew [] 0 with state := TrackState.Lost, frame_id := 1, track_id := 7 }

/-- Witness for `C2_expired_track_in_lost_and_removed` at a concrete
expired lost track, frame 3, `max_time_lost = 1`. -/
theorem C2_expired_witness :
    (0 < [c2_wit].length ∧ (1:ℤ) < 3 - (hget [c2_wit] 0).frame_id ∧
      (hget [c2_wit] 0).track_id ∉ ([] : List ℕ).map (fun i => (hget [c2_wit] i).track_id)) ∧
    (BYTETracker.expire_and_merge [c2_wit] [] [0] [] [] [] [] [] 3 1 =
      (hset [c2_wit] 0 (hget [c2_wit] 0).mark_removed, [], [0], [] ++ [0, 0]) ∧
      (hget (hset [c2_wit] 0 (hget [c2_wit] 0).mark_removed) 0).state = TrackState.Removed) :=
  ⟨⟨by simp, by simp [c2_wit, hget_cons_zero, STrack.mkNew], by simp⟩,
   C2_expired_track_in_lost_and_removed [c2_wit] 0 [] 3 1 (by simp)
     (by simp [c2_wit, hget_cons_zero, STrack.mkNew]) (by simp)⟩



/-! ## Claim C3 -/

/-- Claim C3 is false on the code: the claim says the second-association
set is `D_low = {d : 0.1 < score ≤ track_thresh}`, so a detection with
score exactly `track_thresh` belongs to `D_low`.  Counterexample: with
`track_thresh = 1/4`, a detection with score `1/4` satisfies
`0.1 < 1/4 ≤ 1/4` but is selected by NEITHER filter — the code's
second-stage condition `scores < track_thresh` is strict. -/
theorem C3_counterexample :
    BYTETracker.select_high [[some 0, some 0, some 1, some 1]] [1/4] (1/4) = ([], []) ∧
    BYTETracker.select_low [[some 0, some 0, some 1, some 1]] [1/4] (1/4) = ([], []) ∧
    ((1:ℚ)/10 < 1/4 ∧ (1:ℚ)/4 ≤ 1/4) := by
  refine ⟨?_, ?_, by norm_num, le_refl _⟩
  · norm_num [BYTETracker.select_high]
  · norm_num [BYTETracker.select_low]

theorem zip_map_fst_snd {α β : Type} (l : List (α × β)) :
    (l.map Prod.fst).zip (l.map Prod.snd) = l := by
  induction l with
  | nil => rfl
  | cons a t ih => simp [ih]

/-- Claim C3, amended: the detections are split into
`D_high = {d : d.score > track_thresh}` and
`D_low = {d : 0.1 < d.score < track_thresh}` — both bounds of `D_low`
strict, so a detection whose score equals `track_thresh` exactly belongs
to neither set. -/
theorem C3_partition (bboxes : List Vec) (scores : List ℚ) (thresh : ℚ)
    (b : Vec) (s : ℚ) :
    ((b, s) ∈ ((BYTETracker.select_high bboxes scores thresh).1.zip
        (BYTETracker.select_high bboxes scores thresh).2) ↔
      ((b, s) ∈ bboxes.zip scores ∧ thresh < s)) ∧
    ((b, s) ∈ ((BYTETracker.select_low bboxes scores thresh).1.zip
        (BYTETracker.select_low bboxes scores thresh).2) ↔
      ((b, s) ∈ bboxes.zip scores ∧ 1/10 < s ∧ s < thresh)) := by
  constructor
  · simp [BYTETracker.select_high, zip_map_fst_snd, List.mem_filter]
  · simp [BYTETracker.select_low, zip_map_fst_snd, List.mem_filter, and_assoc]



/-! ## Claims C4 and C5: the assignment kernel -/


/-- Post-filter mask through the clamp: an entry passes the `≤ thresh`
mask on the clamped matrix exactly when the original entry does. -/
theorem fle_clamp (x : NpF) (t : ℚ) :
    fle (if fgt x t then some (t + 1/10000) else x) t = fle x t := by
  cases x with
  | none => simp [fgt, fle]
  | some a =>
    by_cases h : t < a
    · simp only [fgt, decide_eq_true h, if_true, fle]
      have h1 : ¬ (t + 1/10000 ≤ t) := by norm_num
      have h2 : ¬ (a ≤ t) := not_le.mpr h
      simp [h1, h2]
    · simp [fgt, h]

/-- Entrywise description of `clampMat`. -/
theorem entry_clampMat (C : NpMat) (t : ℚ) (i j : ℕ) :
    (clampMat C t).entry i j =
      (if fgt (C.entry i j) t then some (t + 1/10000) else C.entry i j) := by
  show vget ((C.data.map (List.map _)).getD i []) j = _
  simp only [NpMat.entry, vget, List.getD_eq_getElem?_getD, List.getElem?_map]
  cases hrow : C.data[i]? with
  | none => simp [fgt]
  | some row =>
    simp only [Option.map_some', Option.getD_some]
    rw [List.getElem?_map]
    cases hx : row[j]? with
    | none => simp [fgt]
    | some x => simp

/-- The fold of `bestMatching` yields its seed or a list member. -/
theorem bestMatching_foldl_mem (cost : ℕ × ℕ → ℚ) (cs : List (List (ℕ × ℕ)))
    (b : List (ℕ × ℕ)) :
    cs.foldl (fun best x => if matchCost cost x < matchCost cost best then x else best) b
      = b ∨
    cs.foldl (fun best x => if matchCost cost x < matchCost cost best then x else best) b
      ∈ cs := by
  induction cs generalizing b with
  | nil => exact Or.inl rfl
  | cons c cs ih =>
    rw [List.foldl_cons]
    rcases ih (if matchCost cost c < matchCost cost b then c else b) with h | h
    · rw [h]
      split
      · exact Or.inr (List.mem_cons_self _ _)
      · exact Or.inl rfl
    · exact Or.inr (List.mem_cons_of_mem _ h)

/-- `bestMatching` returns a candidate. -/
theorem bestMatching_mem (cost : ℕ × ℕ → ℚ) (cands : List (List (ℕ × ℕ)))
    (hne : cands ≠ []) : bestMatching cost cands ∈ cands := by
  cases cands with
  | nil => exact absurd rfl hne
  | cons c cs =>
    rcases bestMatching_foldl_mem cost cs c with h | h
    · rw [bestMatching, h]
      exact List.mem_cons_self _ _
    · exact List.mem_cons_of_mem _ h

/-- The fold of `bestMatching` never exceeds its seed's cost. -/
theorem bestMatching_foldl_le (cost : ℕ × ℕ → ℚ) (cs : List (List (ℕ × ℕ)))
    (b : List (ℕ × ℕ)) :
    matchCost cost (cs.foldl
      (fun best x => if matchCost cost x < matchCost cost best then x else best) b)
      ≤ matchCost cost b := by
  induction cs generalizing b with
  | nil => exact le_refl _
  | cons c cs ih =>
    rw [List.foldl_cons]
    refine le_trans (ih _) ?_
    split
    · exact le_of_lt (by assumption)
    · exact le_refl _

/-- The fold of `bestMatching` never exceeds any member's cost. -/
theorem bestMatching_foldl_le_mem (cost : ℕ × ℕ → ℚ) (cs : List (List (ℕ × ℕ)))
    (b x : List (ℕ × ℕ)) (hx : x ∈ cs) :
    matchCost cost (cs.foldl
      (fun best y => if matchCost cost y < matchCost cost best then y else best) b)
      ≤ matchCost cost x := by
  induction cs generalizing b with
  | nil => cases hx
  | cons c cs ih =>
    rw [List.foldl_cons]
    rcases List.mem_cons.mp hx with h | h
    · subst h
      refine le_trans (bestMatching_foldl_le cost cs _) ?_
      split
      · exact le_refl _
      · exact not_lt.mp (by assumption)
    · exact ih _ h

/-- `bestMatching` minimises the cost over the candidates. -/
theorem bestMatching_le (cost : ℕ × ℕ → ℚ) (cands : List (List (ℕ × ℕ)))
    (x : List (ℕ × ℕ)) (hx : x ∈ cands) :
    matchCost cost (bestMatching cost cands) ≤ matchCost cost x := by
  cases cands with
  | nil => cases hx
  | cons c cs =>
    rw [bestMatching]
    rcases List.mem_cons.mp hx with h | h
    · subst h
      exact bestMatching_foldl_le cost cs x
    · exact bestMatching_foldl_le_mem cost cs c x h


/-- With no columns the only assignment is empty. -/
theorem allMatchings_nil_right (rows : List ℕ) : allMatchings rows [] = [[]] := by
  induction rows with
  | nil => simp [allMatchings]
  | cons r rs ih =>
    rw [allMatchings]
    simp [ih]

/-- The assignment search space is never empty. -/
theorem allMatchings_ne_nil (rows cols : List ℕ) : allMatchings rows cols ≠ [] := by
  induction rows generalizing cols with
  | nil => simp [allMatchings]
  | cons r rs ih =>
    rw [allMatchings]
    split
    · rename_i hlt
      cases cols with
      | nil => simp at hlt
      | cons c cs =>
        simp only [List.map_cons, List.flatten_cons, ne_eq, List.append_eq_nil]
        intro h
        exact ih (List.erase (c :: cs) c) (List.map_eq_nil_iff.mp h.1)
    · simp only [ne_eq, List.append_eq_nil]
      intro h
      exact ih cols h.2

/-- Case analysis for membership in `allMatchings` on a row cons. -/
theorem allMatchings_mem_cons (r : ℕ) (rs cols : List ℕ) (m : List (ℕ × ℕ))
    (hm : m ∈ allMatchings (r :: rs) cols) :
    (∃ c ∈ cols, ∃ m' ∈ allMatchings rs (cols.erase c), m = (r, c) :: m') ∨
    m ∈ allMatchings rs cols := by
  rw [allMatchings] at hm
  split at hm
  · left
    simp only [List.mem_flatten, List.mem_map] at hm
    obtain ⟨l, ⟨c, hc, rfl⟩, hml⟩ := hm
    obtain ⟨m', hm', rfl⟩ := List.mem_map.mp hml
    exact ⟨c, hc, m', hm', rfl⟩
  · rcases List.mem_append.mp hm with h | h
    · left
      simp only [List.mem_flatten, List.mem_map] at h
      obtain ⟨l, ⟨c, hc, rfl⟩, hml⟩ := h
      obtain ⟨m', hm', rfl⟩ := List.mem_map.mp hml
      exact ⟨c, hc, m', hm', rfl⟩
    · exact Or.inr h

/-- Every candidate assignment is a partial one-to-one map: pairwise
distinct row indices taken from `rows` and pairwise distinct column
indices taken from `cols`. -/
theorem allMatchings_spec (rows : List ℕ) : ∀ (cols : List ℕ), rows.Nodup → cols.Nodup →
    ∀ m ∈ allMatchings rows cols,
    (m.map Prod.fst).Nodup ∧ (m.map Prod.snd).Nodup ∧
    ∀ p ∈ m, p.1 ∈ rows ∧ p.2 ∈ cols := by
  induction rows with
  | nil =>
    intro cols _ _ m hm
    simp [allMatchings] at hm
    subst hm
    simp
  | cons r rs ih =>
    intro cols hr hc m hm
    rcases allMatchings_mem_cons r rs cols m hm with ⟨c, hc1, m', hm', rfl⟩ | h
    · obtain ⟨hf, hs, hmem⟩ := ih (cols.erase c) (List.Nodup.of_cons hr)
        (hc.erase c) m' hm'
      refine ⟨?_, ?_, ?_⟩
      · simp only [List.map_cons, List.nodup_cons]
        refine ⟨fun hmm => ?_, hf⟩
        obtain ⟨p, hp, hpe⟩ := List.mem_map.mp hmm
        exact (List.nodup_cons.mp hr).1 (hpe ▸ (hmem p hp).1)
      · simp only [List.map_cons, List.nodup_cons]
        refine ⟨fun hmm => ?_, hs⟩
        obtain ⟨p, hp, hpe⟩ := List.mem_map.mp hmm
        have := (hmem p hp).2
        rw [hpe] at this
        exact ((List.Nodup.mem_erase_iff hc).mp this).1 rfl
      · intro p hp
        rcases List.mem_cons.mp hp with rfl | hp2
        · exact ⟨List.mem_cons_self _ _, hc1⟩
        · exact ⟨List.mem_cons_of_mem _ (hmem p hp2).1,
            List.mem_of_mem_erase (hmem p hp2).2⟩
    · obtain ⟨hf, hs, hmem⟩ := ih cols (List.Nodup.of_cons hr) hc m h
      exact ⟨hf, hs, fun p hp => ⟨List.mem_cons_of_mem _ (hmem p hp).1, (hmem p hp).2⟩⟩

/-- The solver's result is a candidate assignment. -/
theorem linear_sum_assignment_mem (C : NpMat) :
    linear_sum_assignment C ∈
      allMatchings (List.range C.nrows) (List.range C.ncols) :=
  bestMatching_mem _ _ (allMatchings_ne_nil _ _)


/-- Claim C5, confirmed: whenever `linear_assignment` returns
`(matches, unmatched_rows, unmatched_cols)`, no returned match has cost
`> τ` (every match satisfies `cost ≤ τ` on the ORIGINAL matrix), the
matched row indices are disjoint from `unmatched_rows` and together with
them cover exactly the row indices `< nrows`, and likewise for columns. -/
theorem C5_assignment_partition (C : NpMat) (τ : ℚ) (m : List (ℕ × ℕ))
    (ua ub : List ℕ) (h : linear_assignment C τ = some (m, ua, ub)) :
    (∀ p ∈ m, fle (C.entry p.1 p.2) τ = true) ∧
    (∀ i, (i ∈ m.map Prod.fst ∨ i ∈ ua) ↔ i < C.nrows) ∧
    (∀ i, i ∈ m.map Prod.fst → i ∉ ua) ∧
    (∀ j, (j ∈ m.map Prod.snd ∨ j ∈ ub) ↔ j < C.ncols) ∧
    (∀ j, j ∈ m.map Prod.snd → j ∉ ub) := by
  unfold linear_assignment at h
  split at h
  · simp only [Option.some.injEq, Prod.mk.injEq] at h
    obtain ⟨rfl, rfl, rfl⟩ := h
    refine ⟨by simp, ?_, by simp, ?_, by simp⟩
    · intro i
      simp [List.mem_range]
    · intro j
      simp [List.mem_range]
  · simp only [] at h
    split at h
    · simp only [Option.some.injEq] at h
      rw [indices_to_matches] at h
      simp only [Prod.mk.injEq] at h
      obtain ⟨rfl, rfl, rfl⟩ := h
      have hσ := linear_sum_assignment_mem (clampMat C τ)
      have hspec := allMatchings_spec (List.range (clampMat C τ).nrows)
        (List.range (clampMat C τ).ncols) (List.nodup_range _) (List.nodup_range _)
        (linear_sum_assignment (clampMat C τ)) hσ
      set σ := linear_sum_assignment (clampMat C τ) with hσdef
      have hnr : (clampMat C τ).nrows = C.nrows := rfl
      have hnc : (clampMat C τ).ncols = C.ncols := rfl
      rw [hnr, hnc] at hspec
      refine ⟨?_, ?_, ?_, ?_, ?_⟩
      · intro p hp
        have := (List.mem_filter.mp hp).2
        rwa [entry_clampMat, fle_clamp] at this
      · intro i
        constructor
        · rintro (hi | hi)
          · obtain ⟨p, hp, rfl⟩ := List.mem_map.mp hi
            exact List.mem_range.mp (hspec.2.2 p (List.mem_of_mem_filter hp)).1
          · rw [hnr] at hi
            exact List.mem_range.mp (List.mem_filter.mp hi).1
        · intro hlt
          by_cases hc : i ∈ List.map Prod.fst (σ.filter
              (fun p => fle ((clampMat C τ).entry p.1 p.2) τ))
          · exact Or.inl hc
          · refine Or.inr ?_
            rw [hnr]
            exact List.mem_filter.mpr ⟨List.mem_range.mpr hlt, by simp [hc]⟩
      · intro i hi hua
        rw [hnr] at hua
        have := (List.mem_filter.mp hua).2
        simp [hi] at this
      · intro j
        constructor
        · rintro (hj | hj)
          · obtain ⟨p, hp, rfl⟩ := List.mem_map.mp hj
            exact List.mem_range.mp (hspec.2.2 p (List.mem_of_mem_filter hp)).2
          · rw [hnc] at hj
            exact List.mem_range.mp (List.mem_filter.mp hj).1
        · intro hlt
          by_cases hc : j ∈ List.map Prod.snd (σ.filter
              (fun p => fle ((clampMat C τ).entry p.1 p.2) τ))
          · exact Or.inl hc
          · refine Or.inr ?_
            rw [hnc]
            exact List.mem_filter.mpr ⟨List.mem_range.mpr hlt, by simp [hc]⟩
      · intro j hj hub
        rw [hnc] at hub
        have := (List.mem_filter.mp hub).2
        simp [hj] at this
    · exact absurd h (by simp)


/-- Concrete evaluation of `linear_assignment` on the 1×1 matrix `[[0]]`. -/
theorem c5eval : linear_assignment ⟨1, 1, [[some 0]]⟩ 1 = some ([(0, 0)], [], []) := by
  norm_num [linear_assignment, clampMat, indices_to_matches, linear_sum_assignment,
    allMatchings, bestMatching, matchCost, NpMat.entry, vget, fgt, fle,
    List.range_succ, List.erase_cons]

/-- Witness for `C5_assignment_partition` on the 1×1 matrix `[[0]]` with
threshold 1. -/
theorem C5_witness :
    linear_assignment ⟨1, 1, [[some 0]]⟩ 1 = some ([(0, 0)], [], []) ∧
    ((∀ p ∈ [(0, 0)], fle ((⟨1, 1, [[some 0]]⟩ : NpMat).entry p.1 p.2) 1 = true) ∧
     (∀ i, (i ∈ [(0, 0)].map Prod.fst ∨ i ∈ ([] : List ℕ)) ↔ i < (1 : ℕ)) ∧
     (∀ i, i ∈ [(0, 0)].map Prod.fst → i ∉ ([] : List ℕ)) ∧
     (∀ j, (j ∈ [(0, 0)].map Prod.snd ∨ j ∈ ([] : List ℕ)) ↔ j < (1 : ℕ)) ∧
     (∀ j, j ∈ [(0, 0)].map Prod.snd → j ∉ ([] : List ℕ))) :=
  ⟨c5eval, C5_assignment_partition ⟨1, 1, [[some 0]]⟩ 1 [(0, 0)] [] [] c5eval⟩


/-- The sum of the selected (original) costs of a matching. -/
def sumCosts (C : NpMat) (m : List (ℕ × ℕ)) : ℚ :=
  matchCost (fun p => (C.entry p.1 p.2).getD 0) m

/-- A feasible partial matching in the sense of claim C4: a partial
one-to-one map between row and column indices in which every matched pair
has cost `≤ τ`. -/
def FeasibleMatching (C : NpMat) (τ : ℚ) (m : List (ℕ × ℕ)) : Prop :=
  (m.map Prod.fst).Nodup ∧ (m.map Prod.snd).Nodup ∧
  ∀ p ∈ m, p.1 < C.nrows ∧ p.2 < C.ncols ∧ fle (C.entry p.1 p.2) τ = true

/-- Claim C4 is false on the code: the claim says the returned matches
minimise the sum of the selected (original) costs over ALL feasible
partial matchings.  Counterexample: on the 1×1 matrix `[[1/2]]` with
`τ = 4/5` the kernel returns the match `(0,0)` with cost sum `1/2`, yet
the EMPTY matching is feasible with cost sum `0 < 1/2` — the solver
minimises over maximum-cardinality assignments, not over all partial
matchings. -/
theorem C4_counterexample :
    linear_assignment ⟨1, 1, [[some (1/2)]]⟩ (4/5) = some ([(0, 0)], [], []) ∧
    FeasibleMatching ⟨1, 1, [[some (1/2)]]⟩ (4/5) [] ∧
    ¬ (sumCosts ⟨1, 1, [[some (1/2)]]⟩ [(0, 0)] ≤ sumCosts ⟨1, 1, [[some (1/2)]]⟩ []) := by
  refine ⟨?_, ⟨by simp, by simp, by simp⟩, ?_⟩
  · norm_num [linear_assignment, clampMat, indices_to_matches, linear_sum_assignment,
      allMatchings, bestMatching, matchCost, NpMat.entry, vget, fgt, fle,
      List.range_succ, List.erase_cons]
  · norm_num [sumCosts, matchCost, NpMat.entry, vget]

/-- With no rows the only assignment is empty. -/
theorem allMatchings_nil_left (cols : List ℕ) : allMatchings [] cols = [[]] := by
  simp [allMatchings]

/-- Claim C4, amended: the matches form a partial one-to-one map between
rows and columns, every matched pair has (original) cost `≤ τ`, and the
matches arise from a maximum-cardinality assignment `σ` that minimises the
CLAMPED cost sum (entries above `τ` replaced by `τ + 1e-4`) over all
maximum-cardinality assignments, by discarding the pairs of cost `> τ`;
the sum of original costs is NOT minimised over all feasible partial
matchings (see `C4_counterexample`). -/
theorem C4_assignment_structure (C : NpMat) (τ : ℚ) (m : List (ℕ × ℕ))
    (ua ub : List ℕ) (h : linear_assignment C τ = some (m, ua, ub)) :
    (m.map Prod.fst).Nodup ∧ (m.map Prod.snd).Nodup ∧
    (∀ p ∈ m, fle (C.entry p.1 p.2) τ = true) ∧
    ∃ σ ∈ allMatchings (List.range C.nrows) (List.range C.ncols),
      m = σ.filter (fun p => fle (C.entry p.1 p.2) τ) ∧
      ∀ σ' ∈ allMatchings (List.range C.nrows) (List.range C.ncols),
        sumCosts (clampMat C τ) σ ≤ sumCosts (clampMat C τ) σ' := by
  unfold linear_assignment at h
  split at h
  · rename_i h0
    simp only [Option.some.injEq, Prod.mk.injEq] at h
    obtain ⟨rfl, rfl, rfl⟩ := h
    have hall : allMatchings (List.range C.nrows) (List.range C.ncols) = [[]] := by
      rcases h0 with h0 | h0
      · rw [h0]
        exact allMatchings_nil_left _
      · rw [h0]
        exact allMatchings_nil_right _
    refine ⟨by simp, by simp, by simp, [], ?_, by simp, ?_⟩
    · rw [hall]
      simp
    · intro σ' hσ'
      rw [hall, List.mem_singleton] at hσ'
      subst hσ'
      exact le_refl _
  · simp only [] at h
    split at h
    · simp only [Option.some.injEq] at h
      rw [indices_to_matches] at h
      simp only [Prod.mk.injEq] at h
      obtain ⟨rfl, rfl, rfl⟩ := h
      have hσ := linear_sum_assignment_mem (clampMat C τ)
      have hspec := allMatchings_spec (List.range (clampMat C τ).nrows)
        (List.range (clampMat C τ).ncols) (List.nodup_range _) (List.nodup_range _)
        (linear_sum_assignment (clampMat C τ)) hσ
      set σ := linear_sum_assignment (clampMat C τ) with hσdef
      have hfeq : ∀ p ∈ σ, (fle ((clampMat C τ).entry p.1 p.2) τ) =
          (fle (C.entry p.1 p.2) τ) := by
        intro p _
        rw [entry_clampMat, fle_clamp]
      refine ⟨?_, ?_, ?_, σ, hσ, ?_, ?_⟩
      · exact List.Nodup.sublist (List.Sublist.map Prod.fst (List.filter_sublist σ))
          hspec.1
      · exact List.Nodup.sublist (List.Sublist.map Prod.snd (List.filter_sublist σ))
          hspec.2.1
      · intro p hp
        have := (List.mem_filter.mp hp).2
        rwa [entry_clampMat, fle_clamp] at this
      · exact List.filter_congr hfeq
      · intro σ' hσ'
        exact bestMatching_le _ _ σ' hσ'
    · exact absurd h (by simp)

/-- Concrete evaluation of `linear_assignment` on the 1×1 matrix `[[1/4]]`. -/
theorem c4eval : linear_assignment ⟨1, 1, [[some (1/4)]]⟩ 1 = some ([(0, 0)], [], []) := by
  norm_num [linear_assignment, clampMat, indices_to_matches, linear_sum_assignment,
    allMatchings, bestMatching, matchCost, NpMat.entry, vget, fgt, fle,
    List.range_succ, List.erase_cons]

/-- Witness for `C4_assignment_structure` on the 1×1 matrix `[[1/4]]` with
threshold 1. -/
theorem C4_witness :
    linear_assignment ⟨1, 1, [[some (1/4)]]⟩ 1 = some ([(0, 0)], [], []) ∧
    (([(0, 0)].map Prod.fst).Nodup ∧ ([(0, 0)].map Prod.snd).Nodup ∧
     (∀ p ∈ [(0, 0)], fle ((⟨1, 1, [[some (1/4)]]⟩ : NpMat).entry p.1 p.2) 1 = true) ∧
     ∃ σ ∈ allMatchings (List.range (1 : ℕ)) (List.range (1 : ℕ)),
       [(0, 0)] = σ.filter (fun p => fle ((⟨1, 1, [[some (1/4)]]⟩ : NpMat).entry p.1 p.2) 1) ∧
       ∀ σ' ∈ allMatchings (List.range (1 : ℕ)) (List.range (1 : ℕ)),
         sumCosts (clampMat ⟨1, 1, [[some (1/4)]]⟩ 1) σ ≤
           sumCosts (clampMat ⟨1, 1, [[some (1/4)]]⟩ 1) σ') :=
  ⟨c4eval, C4_assignment_structure ⟨1, 1, [[some (1/4)]]⟩ 1 [(0, 0)] [] [] c4eval⟩



/-! ## Claim C6 -/


/-- Claim C6 is false on the code: the claim says that when BOTH boxes
are degenerate (the division is 0/0) the IoU entry is 0, not NaN.
Counterexample: for two zero-area boxes the denominator
`area_true + area_detection - area_inter` is exactly 0, and the numpy
double division 0/0 produces NaN (non-finite, embedded `none`), not 0 —
the implementation has no guard. -/
theorem C6_counterexample :
    (box_iou_batch [[some 0, some 0, some 0, some 0]]
        [[some 0, some 0, some 0, some 0]]).entry 0 0 = none ∧
    (box_iou_batch [[some 0, some 0, some 0, some 0]]
        [[some 0, some 0, some 0, some 0]]).entry 0 0 ≠ some 0 := by
  have h : (box_iou_batch [[some 0, some 0, some 0, some 0]]
      [[some 0, some 0, some 0, some 0]]).entry 0 0 = none := by
    simp only [box_iou_batch, NpMat.entry, vget, List.map_cons, List.map_nil,
      List.getD_cons_zero, List.getD_cons_succ, interArea, boxArea, fmin, fmax,
      fsub, fadd, fmul, fdiv]
    norm_num
  exact ⟨h, by rw [h]; simp⟩

/-- Claim C6, amended: a pairing in which EITHER box (the `boxes_true`
one or the `boxes_detection` one) has zero or negative area has zero
intersection, so the IoU entry is 0 whenever the denominator
`area_true + area_detection` is nonzero; when the denominator is zero
(e.g. both boxes degenerate) the division yields a non-finite value
(NaN), not 0. -/
theorem C6_degenerate_iou (ax1 ay1 ax2 ay2 bx1 by1 bx2 by2 : ℚ)
    (hdeg : (ax2 - ax1) * (ay2 - ay1) ≤ 0 ∨ (bx2 - bx1) * (by2 - by1) ≤ 0) :
    (box_iou_batch [[some ax1, some ay1, some ax2, some ay2]]
        [[some bx1, some by1, some bx2, some by2]]).entry 0 0 =
      if (ax2 - ax1) * (ay2 - ay1) + (bx2 - bx1) * (by2 - by1) = 0 then none
      else some 0 := by
  have key : max (min ax2 bx2 - max ax1 bx1) 0 * max (min ay2 by2 - max ay1 by1) 0
      = 0 := by
    rcases hdeg with hA | hB
    · rcases mul_nonpos_iff.mp hA with ⟨h1, h2⟩ | ⟨h1, h2⟩
      · have hy : min ay2 by2 - max ay1 by1 ≤ 0 := by
          have := min_le_left ay2 by2
          have := le_max_left ay1 by1
          linarith
        rw [max_eq_right hy, mul_zero]
      · have hx : min ax2 bx2 - max ax1 bx1 ≤ 0 := by
          have := min_le_left ax2 bx2
          have := le_max_left ax1 bx1
          linarith
        rw [max_eq_right hx, zero_mul]
    · rcases mul_nonpos_iff.mp hB with ⟨h1, h2⟩ | ⟨h1, h2⟩
      · have hy : min ay2 by2 - max ay1 by1 ≤ 0 := by
          have := min_le_right ay2 by2
          have := le_max_right ay1 by1
          linarith
        rw [max_eq_right hy, mul_zero]
      · have hx : min ax2 bx2 - max ax1 bx1 ≤ 0 := by
          have := min_le_right ax2 bx2
          have := le_max_right ax1 bx1
          linarith
        rw [max_eq_right hx, zero_mul]
  simp only [box_iou_batch, NpMat.entry, vget, List.map_cons, List.map_nil,
    List.getD_cons_zero, List.getD_cons_succ, interArea, boxArea, fmin, fmax,
    fsub, fadd, fmul, fdiv]
  rw [key, sub_zero]
  split_ifs with h
  · rfl
  · rw [zero_div]

/-- Witness for `C6_degenerate_iou` on the `boxes_detection` side: a box
of area 4 as `boxes_true` against a zero-area detection box gives IoU
exactly 0. -/
theorem C6_witness :
    (((2:ℚ) - 0) * ((2:ℚ) - 0) ≤ 0 ∨ ((0:ℚ) - 0) * ((0:ℚ) - 0) ≤ 0) ∧
    ((box_iou_batch [[some 0, some 0, some 2, some 2]]
        [[some 0, some 0, some 0, some 0]]).entry 0 0 =
      if ((2:ℚ) - 0) * ((2:ℚ) - 0) + ((0:ℚ) - 0) * ((0:ℚ) - 0) = 0 then none
      else some 0) :=
  ⟨Or.inr (by norm_num), C6_degenerate_iou 0 0 2 2 0 0 0 0 (Or.inr (by norm_num))⟩



/-! ## Claim C7 -/


/-- The de-duplication decision on singleton lists: for a pair at IoU
distance `< 0.15`, the strictly younger track is dropped; on age ties the
track dropped comes from the FIRST list. -/
theorem dedup_singleton_rule (ta tb : STrack)
    (hclose : flt ((iou_distance [ta] [tb]).entry 0 0) (3/20) = true) :
    (tb.frame_id - tb.start_frame < ta.frame_id - ta.start_frame →
      remove_duplicate_stracks [ta] [tb] = ([ta], [])) ∧
    (ta.frame_id - ta.start_frame ≤ tb.frame_id - tb.start_frame →
      remove_duplicate_stracks [ta] [tb] = ([], [tb])) := by
  constructor
  · intro h
    simp [remove_duplicate_stracks, dup_sets, dup_pairs, setInsert,
      hget_cons_zero, hclose, h, List.range_succ]
  · intro h
    have h2 : ¬ (tb.frame_id - tb.start_frame < ta.frame_id - ta.start_frame) :=
      not_lt.mpr h
    simp [remove_duplicate_stracks, dup_sets, dup_pairs, setInsert,
      hget_cons_zero, hclose, h2, List.range_succ]

/-- An example track: box `(0,0)–(10,10)`, born frame 2, last seen frame 5. -/
def c7_a : STrack :=
  { STrack.mkNew [some 0, some 0, some 10, some 10] (9/10) with
    track_id := 1, frame_id := 5, start_frame := 2 }

/-- A second track with the same box and the same age as `c7_a`. -/
def c7_b : STrack :=
  { STrack.mkNew [some 0, some 0, some 10, some 10] (8/10) with
    track_id := 2, frame_id := 5, start_frame := 2 }

/-- `c7_a` and `c7_b` coincide, so their IoU distance is `0 < 0.15`. -/
theorem c7_close : flt ((iou_distance [c7_a] [c7_b]).entry 0 0) (3/20) = true := by
  simp only [c7_a, c7_b, STrack.mkNew, iou_distance, iou_distance_boxes, ious,
    STrack.tlbr, STrack.tlwh, STrack.tlwh_to_tlbr, box_iou_batch, NpMat.entry,
    vget, List.map_cons, List.map_nil, List.getD_cons_zero, List.getD_cons_succ,
    interArea, boxArea, fmin, fmax, fsub, fadd, fmul, fdiv, flt,
    List.isEmpty_cons, Bool.false_or, Bool.or_false, Bool.and_false]
  norm_num

/-- Claim C7 is false on the code: the claim says that for a duplicate
pair of exactly equal ages the track dropped is the one from the second
list (lost).  Counterexample: `c7_a` (first list) and `c7_b` (second
list) have equal ages and IoU distance `0 < 0.15`, yet
`remove_duplicate_stracks` keeps the SECOND list's track and drops the
first (`time_a > time_b` is false on a tie, so index `a` joins
`duplicates_a`). -/
theorem C7_counterexample :
    flt ((iou_distance [c7_a] [c7_b]).entry 0 0) (3/20) = true ∧
    c7_a.frame_id - c7_a.start_frame = c7_b.frame_id - c7_b.start_frame ∧
    remove_duplicate_stracks [c7_a] [c7_b] = ([], [c7_b]) :=
  ⟨c7_close, by norm_num [c7_a, c7_b, STrack.mkNew],
   (dedup_singleton_rule c7_a c7_b c7_close).2
     (by norm_num [c7_a, c7_b, STrack.mkNew])⟩

/-- Claim C7, amended: during de-duplication, for every pair at IoU
distance `< 0.15` the younger track (smaller `frame_id - start_frame`) is
dropped, and when the two ages are exactly equal the dropped track is the
one from the FIRST list (tracked), not the second. -/
theorem C7_dedup_rule (ta tb : STrack)
    (hclose : flt ((iou_distance [ta] [tb]).entry 0 0) (3/20) = true) :
    (tb.frame_id - tb.start_frame < ta.frame_id - ta.start_frame →
      remove_duplicate_stracks [ta] [tb] = ([ta], [])) ∧
    (ta.frame_id - ta.start_frame ≤ tb.frame_id - tb.start_frame →
      remove_duplicate_stracks [ta] [tb] = ([], [tb])) :=
  dedup_singleton_rule ta tb hclose

/-- Witness for `C7_dedup_rule` at the concrete pair `c7_a`, `c7_b`. -/
theorem C7_witness :
    flt ((iou_distance [c7_a] [c7_b]).entry 0 0) (3/20) = true ∧
    ((c7_b.frame_id - c7_b.start_frame < c7_a.frame_id - c7_a.start_frame →
      remove_duplicate_stracks [c7_a] [c7_b] = ([c7_a], [])) ∧
     (c7_a.frame_id - c7_a.start_frame ≤ c7_b.frame_id - c7_b.start_frame →
      remove_duplicate_stracks [c7_a] [c7_b] = ([], [c7_b]))) :=
  ⟨c7_close, C7_dedup_rule c7_a c7_b c7_close⟩



/-! ## Claim C8 -/


/-- The vectorized prediction agrees elementwise with the scalar one. -/
theorem multi_predict_eq_map (pairs : List (Vec × Mat)) :
    KalmanFilter.multi_predict (pairs.map Prod.fst) (pairs.map Prod.snd) =
      ((pairs.map (fun p => KalmanFilter.predict p.1 p.2)).map Prod.fst,
       (pairs.map (fun p => KalmanFilter.predict p.1 p.2)).map Prod.snd) := by
  unfold KalmanFilter.multi_predict
  refine Prod.ext ?_ ?_
  · simp only [List.map_map]
    rfl
  · simp only [List.map_map]
    induction pairs with
    | nil => rfl
    | cons p ps ih =>
      simp only [List.map_cons, List.zipWith_cons_cons]
      rw [ih]
      rfl

/-- Claim C8, confirmed: for every K ≥ 1, `KalmanFilter.multi_predict`
on a K×8 mean array and K×8×8 covariance array returns exactly the means
and covariances of K independent `KalmanFilter.predict` calls on the
individual pairs; the process noise Q of each track is built from that
track's own pre-predict mean (`create_std` is applied per row). -/
theorem C8_multi_predict_refines (pairs : List (Vec × Mat))
    (_hK : 1 ≤ pairs.length) :
    KalmanFilter.multi_predict (pairs.map Prod.fst) (pairs.map Prod.snd) =
      ((pairs.map (fun p => KalmanFilter.predict p.1 p.2)).map Prod.fst,
       (pairs.map (fun p => KalmanFilter.predict p.1 p.2)).map Prod.snd) :=
  multi_predict_eq_map pairs

/-- Witness for `C8_multi_predict_refines` at a single zero track. -/
theorem C8_witness :
    1 ≤ ([((List.replicate 8 (some 0) : Vec),
          (List.replicate 8 (List.replicate 8 (some 0)) : Mat))] : List (Vec × Mat)).length ∧
    KalmanFilter.multi_predict
        ([((List.replicate 8 (some 0) : Vec),
           (List.replicate 8 (List.replicate 8 (some 0)) : Mat))].map Prod.fst)
        ([((List.replicate 8 (some 0) : Vec),
           (List.replicate 8 (List.replicate 8 (some 0)) : Mat))].map Prod.snd) =
      (([((List.replicate 8 (some 0) : Vec),
          (List.replicate 8 (List.replicate 8 (some 0)) : Mat))].map
            (fun p => KalmanFilter.predict p.1 p.2)).map Prod.fst,
       ([((List.replicate 8 (some 0) : Vec),
          (List.replicate 8 (List.replicate 8 (some 0)) : Mat))].map
            (fun p => KalmanFilter.predict p.1 p.2)).map Prod.snd) :=
  ⟨by simp, C8_multi_predict_refines _ (by simp)⟩



/-! ## Claims C9 and C10 -/


/-- Claim C9 is false on the code: the claim says constructing a
`BYTETracker` with an invalid configuration (zero or negative
`frame_rate`/`track_buffer`, out-of-range thresholds) fails at
construction.  Counterexample: `__init__` performs no validation at all —
with `frame_rate = 0` and `track_buffer = 0` it returns a fully formed
tracker instance (with `max_time_lost = 0`); there is no error path. -/
theorem C9_counterexample :
    BYTETracker.mkTracker (1/4) 0 (4/5) 0 =
      { track_thresh := 1/4, match_thresh := 4/5, det_thresh := 7/20,
        buffer_size := 0, max_time_lost := 0, frame_id := 0,
        tracked_stracks := [], lost_stracks := [], removed_stracks := [],
        count := 0, heap := [] } := by
  norm_num [BYTETracker.mkTracker, BYTETracker.pyInt]

/-- Claim C9, amended: construction never fails; for EVERY configuration
(valid or not) `__init__` stores the thresholds unchecked and derives
`det_thresh = track_thresh + 0.1` and
`max_time_lost = int(frame_rate / 30 * track_buffer)`, starting with
empty lists and a reset id counter. -/
theorem C9_no_validation (tt mt : ℚ) (tb fr : ℤ) :
    (BYTETracker.mkTracker tt tb mt fr).track_thresh = tt ∧
    (BYTETracker.mkTracker tt tb mt fr).match_thresh = mt ∧
    (BYTETracker.mkTracker tt tb mt fr).det_thresh = tt + 1/10 ∧
    (BYTETracker.mkTracker tt tb mt fr).max_time_lost =
      BYTETracker.pyInt ((fr : ℚ) / 30 * (tb : ℚ)) ∧
    (BYTETracker.mkTracker tt tb mt fr).frame_id = 0 ∧
    (BYTETracker.mkTracker tt tb mt fr).tracked_stracks = [] ∧
    (BYTETracker.mkTracker tt tb mt fr).lost_stracks = [] ∧
    (BYTETracker.mkTracker tt tb mt fr).removed_stracks = [] ∧
    (BYTETracker.mkTracker tt tb mt fr).count = 0 :=
  ⟨rfl, rfl, rfl, rfl, rfl, rfl, rfl, rfl, rfl⟩

/-- Claim C10, confirmed: `tlwh_to_xyah` divides width by height with no
guard, so for any box with height exactly 0 constructing an `STrack` and
calling `activate` succeeds without an error and stores a non-finite
aspect-ratio component (`none`, numpy's `w/0`) at index 2 of the Kalman
mean; the track still becomes `Tracked`, so zero-height boxes are
silently accepted. -/
theorem C10_zero_height_accepted (x y w s : ℚ) (fid cnt : ℤ) :
    ((STrack.activate (STrack.mkNew [some x, some y, some w, some 0] s) fid cnt).1.mean.isSome
      = true) ∧
    (((STrack.activate (STrack.mkNew [some x, some y, some w, some 0] s) fid cnt).1.mean.getD
        []).getD 2 none = none) ∧
    ((STrack.activate (STrack.mkNew [some x, some y, some w, some 0] s) fid cnt).1.state
      = TrackState.Tracked) := by
  refine ⟨rfl, ?_, rfl⟩
  simp [STrack.activate, STrack.mkNew, STrack.tlwh_to_xyah, KalmanFilter.initiate,
    vget, fdiv, fadd]


end ByteTrack
